import Mathlib

/-!
# ProfilanIQ — formal verification of the profiling engine

A shallow embedding, in Lean 4, of the server-side core of the ProfilanIQ
tabular-data profiler:

* `src/server/services/profilerService.js` — per-column statistics,
  type classification, Pearson correlations (`ProfilerService`);
* `src/server/services/workerService.js` — the worker-pool result combiner;
* `src/server/services/cacheService.js` — fingerprinting and cache lookup;
* `src/server/routes/compare.js` — the report comparison engine;
* the sampling service (`SamplingService`) — seeded RNG, random and
  stratified sampling.

Modelling conventions, used throughout:

* JavaScript numbers are embedded as exact rationals (`ℚ`) wherever the
  source only performs field arithmetic and comparisons, and as reals (`ℝ`)
  where `Math.sqrt` / `Math.log2` intervene.  Floating-point rounding is
  idealized away; `NaN` does not exist in the embedding (the cell model
  only contains finite numbers, which matches the upstream parser).
* A parsed CSV cell is `null`/`undefined`, a finite number, or a string;
  a row is an association list from column names to cells, and a missing
  key reads as `null` (JavaScript `row[col] === undefined`).
* JavaScript object literals whose key sets differ per code path are
  embedded as structures with `Option`-typed fields; an absent key is
  `none`.
* `Array.prototype.sort` with a numeric comparator is embedded as the
  stable `List.mergeSort`.
* Mutable closures (the seeded RNG) become explicit state threading.
-/

/-- A parsed cell value.  `null` covers both JavaScript `null` and
`undefined`; `num` carries a finite number (the upstream CSV parser with
`dynamicTyping` never produces `NaN`/`Infinity` cells). -/
inductive Cell where
  | null : Cell
  | num : ℚ → Cell
  | str : String → Cell
deriving DecidableEq, Repr

/-- A data row: an association list from column name to cell, as produced by
the CSV parser (`Papa.parse` with `header: true`). -/
abbrev Row := List (String × Cell)

/-- `row[col]` — association-list lookup; a missing key is JavaScript
`undefined`, embedded as `Cell.null`. -/
def rowGet (r : Row) (k : String) : Cell :=
  match r.find? (fun e => e.1 == k) with
  | some e => e.2
  | none => Cell.null

/-- The keys of a row object (`Object.keys(row)`). -/
def rowKeys (r : Row) : List String := r.map (fun e => e.1)

/-- The check `v !== null && v !== undefined && v !== ''` from
`profileColumn` (profilerService.js:95-97). -/
def Cell.isNonNull : Cell → Bool
  | Cell.null => false
  | Cell.str s => s != ""
  | Cell.num _ => true

/-- The check `typeof v === 'number' && !isNaN(v)` from
`profileColumn` (profilerService.js:98-100), returning the carried number. -/
def Cell.toNum? : Cell → Option ℚ
  | Cell.num q => some q
  | _ => none

/-- `allValues = data.map(row => row[columnName])` (profilerService.js:94). -/
def allValues (data : List Row) (col : String) : List Cell :=
  data.map (fun row => rowGet row col)

/-- `nonNullValues` (profilerService.js:95-97). -/
def nonNullValues (data : List Row) (col : String) : List Cell :=
  (allValues data col).filter Cell.isNonNull

/-- `numericValues` (profilerService.js:98-100): the numeric-typed subset of
`nonNullValues`, carried as rationals. -/
def numericValues (data : List Row) (col : String) : List ℚ :=
  (nonNullValues data col).filterMap Cell.toNum?

/-- The classification test (profilerService.js:102-103):
`numericValues.length > 0 && numericValues.length / nonNullValues.length > 0.5`.
When `nonNullValues` is empty the JavaScript ratio is `NaN` (`0/0`) and the
comparison is false; the embedding's rational `_ / 0 = 0` gives the same
truth value, and the first conjunct is false in that case anyway. -/
def isNumericCol (data : List Row) (col : String) : Bool :=
  decide (0 < (numericValues data col).length) &&
    decide ((1 : ℚ) / 2 <
      ((numericValues data col).length : ℚ) / ((nonNullValues data col).length : ℚ))

/-- Column classification tags (`type` field of a stats record). -/
inductive ColType where
  | numeric : ColType
  | categorical : ColType
  | unknown : ColType
deriving DecidableEq, Repr

/-- Numeric specialization of a column's statistics
(`calculateNumericStats`, profilerService.js:132-177).  `stdDev`,
`skewness` and `kurtosis` go through `Math.sqrt`, hence live in `ℝ`. -/
structure NumericStats where
  min : ℚ
  max : ℚ
  mean : ℚ
  median : ℚ
  mode : ℚ
  stdDev : ℝ
  variance : ℚ
  q1 : ℚ
  q3 : ℚ
  iqr : ℚ
  outliers : ℕ
  skewness : ℝ
  kurtosis : ℝ

/-- Categorical specialization (`calculateCategoricalStats`,
profilerService.js:179-199).  `entropy` goes through `Math.log2`. -/
structure CategoricalStats where
  topValues : List (String × ℕ)
  entropy : ℝ
  mode : Option String
  modeCount : ℕ
  modePercent : ℚ

/-- One column's statistics record.  The source spreads either the numeric
or the categorical specialization into the base object; the absent
specialization is embedded as `none`. -/
structure ColumnStats where
  type : ColType
  totalCount : ℕ
  validCount : ℕ
  missingCount : ℕ
  missingPercent : ℚ
  unique : ℕ
  uniquePercent : ℚ
  numeric : Option NumericStats
  categorical : Option CategoricalStats

/-- JavaScript `Math.min(...values)` over a nonempty spread (the `[]` case
is never reached by the source, which guards `numericValues.length > 0`). -/
def jsMin : List ℚ → ℚ
  | [] => 0
  | x :: xs => xs.foldl min x

/-- JavaScript `Math.max(...values)`. -/
def jsMax : List ℚ → ℚ
  | [] => 0
  | x :: xs => xs.foldl max x

/-- The interpolated percentile helper `getPercentile` of
`calculateNumericStats` (profilerService.js:144-152).  `index % 1` on the
nonnegative indexes used here is the fractional part. -/
def getPercentile (arr : List ℚ) (p : ℚ) : ℚ :=
  let index := p / 100 * ((arr.length : ℚ) - 1)
  let lower := (⌊index⌋).toNat
  let upper := (⌈index⌉).toNat
  let weight := index - ⌊index⌋
  if arr.length ≤ upper then arr.getLastD 0
  else arr.getD lower 0 * (1 - weight) + arr.getD upper 0 * weight

/-- `calculateMode` (profilerService.js:201-216): the most frequent value,
first maximum wins.  The source iterates a frequency object keyed by the
stringified number; distinct rationals stringify distinctly, and the
embedding uses first-seen insertion order for the tie-break. -/
def calculateMode (values : List ℚ) : ℚ :=
  let counts := values.foldl
    (fun (acc : List (ℚ × ℕ)) v =>
      if acc.any (fun e => e.1 == v) then
        acc.map (fun e => if e.1 == v then (e.1, e.2 + 1) else e)
      else acc ++ [(v, 1)])
    []
  (counts.foldl
    (fun (best : ℚ × ℕ) e => if best.2 < e.2 then e else best)
    (0, 0)).1

/-- `calculateSkewness` (profilerService.js:218-227). -/
noncomputable def calculateSkewness (values : List ℚ) (mean : ℚ) (stdDev : ℝ) : ℝ :=
  if stdDev = 0 then 0
  else (values.map (fun v => (((v : ℝ) - (mean : ℝ)) / stdDev) ^ 3)).sum / (values.length : ℝ)

/-- `calculateKurtosis` (profilerService.js:229-238): excess kurtosis. -/
noncomputable def calculateKurtosis (values : List ℚ) (mean : ℚ) (stdDev : ℝ) : ℝ :=
  if stdDev = 0 then 0
  else (values.map (fun v => (((v : ℝ) - (mean : ℝ)) / stdDev) ^ 4)).sum / (values.length : ℝ) - 3

/-- `calculateNumericStats` (profilerService.js:132-177).  `sort((a,b) => a-b)`
is ascending numeric sort, embedded as stable merge sort. -/
noncomputable def calculateNumericStats (values : List ℚ) : NumericStats :=
  let sorted := values.mergeSort (fun a b => decide (a ≤ b))
  let n := values.length
  let mean := values.sum / (n : ℚ)
  let variance := (values.map (fun v => (v - mean) ^ 2)).sum / (n : ℚ)
  let stdDev : ℝ := Real.sqrt (variance : ℝ)
  let q1 := getPercentile sorted 25
  let q3 := getPercentile sorted 75
  let iqr := q3 - q1
  let lowerBound := q1 - 3 / 2 * iqr
  let upperBound := q3 + 3 / 2 * iqr
  let outliers := (values.filter (fun v => decide (v < lowerBound) || decide (upperBound < v))).length
  { min := jsMin values
    max := jsMax values
    mean := mean
    median := getPercentile sorted 50
    mode := calculateMode values
    stdDev := stdDev
    variance := variance
    q1 := q1
    q3 := q3
    iqr := iqr
    outliers := outliers
    skewness := calculateSkewness values mean stdDev
    kurtosis := calculateKurtosis values mean stdDev }

/-- `String(v)` as used for frequency keys in `calculateCategoricalStats`.
Rational rendering abstracts JavaScript float formatting; no claim depends
on the precise digits. -/
def cellKey : Cell → String
  | Cell.null => "null"
  | Cell.num q => toString q
  | Cell.str s => s

/-- `calculateEntropy` (profilerService.js:240-249), over `ℝ` because of
`Math.log2`. -/
noncomputable def calculateEntropy (counts : List ℕ) : ℝ :=
  let total := counts.sum
  if total = 0 then 0
  else -(counts.map (fun c =>
      if c = 0 then 0
      else ((c : ℝ) / (total : ℝ)) * Real.logb 2 ((c : ℝ) / (total : ℝ)))).sum

/-- The insertion-ordered frequency table of `calculateCategoricalStats`
(profilerService.js:180-184); JavaScript object keys here are arbitrary
strings, enumerated in insertion order. -/
def valueCountsOf (values : List Cell) : List (String × ℕ) :=
  values.foldl
    (fun (acc : List (String × ℕ)) v =>
      let key := cellKey v
      if acc.any (fun e => e.1 == key) then
        acc.map (fun e => if e.1 == key then (e.1, e.2 + 1) else e)
      else acc ++ [(key, 1)])
    []

/-- `calculateCategoricalStats` (profilerService.js:179-199). -/
noncomputable def calculateCategoricalStats (values : List Cell) : CategoricalStats :=
  let valueCounts := valueCountsOf values
  let sortedValues := valueCounts.mergeSort (fun a b => decide (b.2 ≤ a.2))
  { topValues := sortedValues.take 10
    entropy := calculateEntropy (valueCounts.map (fun e => e.2))
    mode := (sortedValues.head?).map (fun e => e.1)
    modeCount := ((sortedValues.head?).map (fun e => e.2)).getD 0
    modePercent :=
      match sortedValues.head? with
      | some e => if 0 < values.length then ((e.2 : ℚ) / (values.length : ℚ)) * 100 else 0
      | none => 0 }

/-- `profileColumn` (profilerService.js:93-130).  The source is `async` but
performs no awaiting; exceptions cannot arise in the embedded cell model
(the `catch` branch of `profileData` is therefore not modelled).  The two
`{...baseStats, ...specialization}` returns are embedded as one record whose
absent specialization is `none`. -/
noncomputable def profileColumn (data : List Row) (col : String) : ColumnStats :=
  let alls := allValues data col
  let nonNull := nonNullValues data col
  let nums := numericValues data col
  let isNumeric := isNumericCol data col
  let missingCount := alls.length - nonNull.length
  let uniqueCount := nonNull.dedup.length
  { type := if isNumeric then ColType.numeric else ColType.categorical
    totalCount := alls.length
    validCount := nonNull.length
    missingCount := missingCount
    missingPercent := ((missingCount : ℚ) / (alls.length : ℚ)) * 100
    unique := uniqueCount
    uniquePercent :=
      if 0 < nonNull.length then ((uniqueCount : ℚ) / (nonNull.length : ℚ)) * 100 else 0
    numeric :=
      if isNumeric && decide (0 < nums.length) then some (calculateNumericStats nums) else none
    categorical :=
      if isNumeric && decide (0 < nums.length) then none
      else some (calculateCategoricalStats nonNull) }

/-- C3: profiling classifies a column numeric exactly when the column has at
least one finite-number cell and these are a strict majority of its
non-null, non-empty cells; otherwise it classifies it categorical. -/
theorem profileColumn_classification (data : List Row) (col : String) (_h : data ≠ []) :
    ((profileColumn data col).type = ColType.numeric ↔
      (0 < (numericValues data col).length ∧
        (1 : ℚ) / 2 <
          ((numericValues data col).length : ℚ) / ((nonNullValues data col).length : ℚ))) ∧
    ((profileColumn data col).type = ColType.numeric ∨
      (profileColumn data col).type = ColType.categorical) := by
  have htype : (profileColumn data col).type =
      (if isNumericCol data col then ColType.numeric else ColType.categorical) := rfl
  constructor
  · rw [htype]
    unfold isNumericCol
    by_cases h1 : 0 < (numericValues data col).length <;>
      by_cases h2 : (1 : ℚ) / 2 <
        ((numericValues data col).length : ℚ) / ((nonNullValues data col).length : ℚ) <;>
      simp [h1, h2]
  · rw [htype]
    by_cases hb : isNumericCol data col <;> simp [hb]

/-! ## Order facts about `jsMin`, `jsMax` and the percentile interpolation -/

theorem foldl_min_le_init (xs : List ℚ) (a : ℚ) : xs.foldl min a ≤ a := by
  induction xs generalizing a with
  | nil => exact le_refl a
  | cons x xs ih => exact le_trans (ih (min a x)) (min_le_left a x)

theorem foldl_min_le_mem (xs : List ℚ) (a x : ℚ) (hx : x ∈ xs) : xs.foldl min a ≤ x := by
  induction xs generalizing a with
  | nil => cases hx
  | cons y ys ih =>
    rcases List.mem_cons.1 hx with rfl | hmem
    · exact le_trans (foldl_min_le_init ys (min a x)) (min_le_right a x)
    · exact ih (min a y) hmem

theorem jsMin_le_mem (l : List ℚ) (x : ℚ) (hx : x ∈ l) : jsMin l ≤ x := by
  cases l with
  | nil => cases hx
  | cons y ys =>
    rcases List.mem_cons.1 hx with rfl | hmem
    · exact foldl_min_le_init ys x
    · exact foldl_min_le_mem ys y x hmem

theorem init_le_foldl_max (xs : List ℚ) (a : ℚ) : a ≤ xs.foldl max a := by
  induction xs generalizing a with
  | nil => exact le_refl a
  | cons x xs ih => exact le_trans (le_max_left a x) (ih (max a x))

theorem mem_le_foldl_max (xs : List ℚ) (a x : ℚ) (hx : x ∈ xs) : x ≤ xs.foldl max a := by
  induction xs generalizing a with
  | nil => cases hx
  | cons y ys ih =>
    rcases List.mem_cons.1 hx with rfl | hmem
    · exact le_trans (le_max_right a x) (init_le_foldl_max ys (max a x))
    · exact ih (max a y) hmem

theorem mem_le_jsMax (l : List ℚ) (x : ℚ) (hx : x ∈ l) : x ≤ jsMax l := by
  cases l with
  | nil => cases hx
  | cons y ys =>
    rcases List.mem_cons.1 hx with rfl | hmem
    · exact init_le_foldl_max ys x
    · exact mem_le_foldl_max ys y x hmem

theorem sorted_getD_mono {l : List ℚ} (hl : l.Sorted (· ≤ ·)) {i j : ℕ}
    (hij : i ≤ j) (hj : j < l.length) : l.getD i 0 ≤ l.getD j 0 := by
  have hi : i < l.length := lt_of_le_of_lt hij hj
  rw [l.getD_eq_getElem 0 hi, l.getD_eq_getElem 0 hj]
  rcases eq_or_lt_of_le hij with rfl | h
  · exact le_refl _
  · exact hl.rel_get_of_lt (show (⟨i, hi⟩ : Fin l.length) < ⟨j, hj⟩ from h)

theorem getD_mem {l : List ℚ} {i : ℕ} (h : i < l.length) : l.getD i 0 ∈ l := by
  rw [l.getD_eq_getElem 0 h]
  exact List.getElem_mem h

/-- The percentile index `p/100 * (n - 1)` lies in `[0, n-1]` for
`0 ≤ p ≤ 100`. -/
theorem percentile_index_bounds {n : ℕ} (h1 : 1 ≤ n) {p : ℚ} (hp0 : 0 ≤ p) (hp1 : p ≤ 100) :
    0 ≤ p / 100 * ((n : ℚ) - 1) ∧ p / 100 * ((n : ℚ) - 1) ≤ (n : ℚ) - 1 := by
  have hN : (0 : ℚ) ≤ (n : ℚ) - 1 := by
    have : (1 : ℚ) ≤ (n : ℚ) := by exact_mod_cast h1
    linarith
  constructor
  · exact mul_nonneg (by positivity) hN
  · exact mul_le_of_le_one_left hN (by linarith [div_le_one_of_le₀ hp1 (by norm_num : (0:ℚ) ≤ 100)])

/-- Under the hypotheses that actually hold at the call sites
(`p ∈ [0,100]`, nonempty array), the `upper >= arr.length` early return of
`getPercentile` is dead and the result is the linear interpolation between
the two neighbouring sorted cells. -/
theorem getPercentile_eq (arr : List ℚ) (p : ℚ) (h1 : 1 ≤ arr.length)
    (hp0 : 0 ≤ p) (hp1 : p ≤ 100) :
    getPercentile arr p =
      arr.getD (⌊p / 100 * ((arr.length : ℚ) - 1)⌋).toNat 0 *
          (1 - Int.fract (p / 100 * ((arr.length : ℚ) - 1))) +
        arr.getD (⌈p / 100 * ((arr.length : ℚ) - 1)⌉).toNat 0 *
          Int.fract (p / 100 * ((arr.length : ℚ) - 1)) := by
  obtain ⟨ht0, htN⟩ := percentile_index_bounds h1 hp0 hp1 (p := p)
  have hceil : (⌈p / 100 * ((arr.length : ℚ) - 1)⌉).toNat < arr.length := by
    have hc : ⌈p / 100 * ((arr.length : ℚ) - 1)⌉ ≤ (arr.length : ℤ) - 1 := by
      rw [Int.ceil_le]
      push_cast
      exact htN
    omega
  rw [getPercentile]
  simp only [Int.fract]
  rw [if_neg (by omega)]

/-- The interpolated percentile lies between its two neighbouring cells of a
sorted array. -/
theorem getPercentile_between (arr : List ℚ) (hs : arr.Sorted (· ≤ ·)) (p : ℚ)
    (h1 : 1 ≤ arr.length) (hp0 : 0 ≤ p) (hp1 : p ≤ 100) :
    arr.getD (⌊p / 100 * ((arr.length : ℚ) - 1)⌋).toNat 0 ≤ getPercentile arr p ∧
      getPercentile arr p ≤ arr.getD (⌈p / 100 * ((arr.length : ℚ) - 1)⌉).toNat 0 := by
  obtain ⟨ht0, htN⟩ := percentile_index_bounds h1 hp0 hp1 (p := p)
  set t := p / 100 * ((arr.length : ℚ) - 1) with hT
  have hUlt : (⌈t⌉).toNat < arr.length := by
    have hc : ⌈t⌉ ≤ (arr.length : ℤ) - 1 := by
      rw [Int.ceil_le]; push_cast; exact htN
    omega
  have hLU : (⌊t⌋).toNat ≤ (⌈t⌉).toNat := Int.toNat_le_toNat (Int.floor_le_ceil t)
  have haLU : arr.getD (⌊t⌋).toNat 0 ≤ arr.getD (⌈t⌉).toNat 0 :=
    sorted_getD_mono hs hLU hUlt
  have hw0 : 0 ≤ Int.fract t := Int.fract_nonneg t
  have hw1 : Int.fract t < 1 := Int.fract_lt_one t
  rw [getPercentile_eq arr p h1 hp0 hp1, ← hT]
  constructor
  · nlinarith [mul_nonneg hw0 (sub_nonneg.2 haLU)]
  · nlinarith [mul_nonneg (by linarith : (0:ℚ) ≤ 1 - Int.fract t) (sub_nonneg.2 haLU)]

/-- Monotonicity of the interpolated percentile in `p` over a sorted array. -/
theorem getPercentile_mono (arr : List ℚ) (hs : arr.Sorted (· ≤ ·))
    {p₁ p₂ : ℚ} (h1 : 1 ≤ arr.length) (hp0 : 0 ≤ p₁) (h12 : p₁ ≤ p₂) (hp2 : p₂ ≤ 100) :
    getPercentile arr p₁ ≤ getPercentile arr p₂ := by
  have hp1' : p₁ ≤ 100 := le_trans h12 hp2
  have hp20 : 0 ≤ p₂ := le_trans hp0 h12
  obtain ⟨ht10, ht1N⟩ := percentile_index_bounds h1 hp0 hp1' (p := p₁)
  obtain ⟨ht20, ht2N⟩ := percentile_index_bounds h1 hp20 hp2 (p := p₂)
  set t₁ := p₁ / 100 * ((arr.length : ℚ) - 1) with hT1
  set t₂ := p₂ / 100 * ((arr.length : ℚ) - 1) with hT2
  have ht : t₁ ≤ t₂ := by
    have hN : (0 : ℚ) ≤ (arr.length : ℚ) - 1 := by
      have : (1 : ℚ) ≤ (arr.length : ℚ) := by exact_mod_cast h1
      linarith
    have hdiv : p₁ / 100 ≤ p₂ / 100 := by linarith
    exact mul_le_mul_of_nonneg_right hdiv hN
  have hU1lt : (⌈t₁⌉).toNat < arr.length := by
    have hc : ⌈t₁⌉ ≤ (arr.length : ℤ) - 1 := by rw [Int.ceil_le]; push_cast; exact ht1N
    omega
  have hU2lt : (⌈t₂⌉).toNat < arr.length := by
    have hc : ⌈t₂⌉ ≤ (arr.length : ℤ) - 1 := by rw [Int.ceil_le]; push_cast; exact ht2N
    omega
  have hL2U2 : (⌊t₂⌋).toNat ≤ (⌈t₂⌉).toNat := Int.toNat_le_toNat (Int.floor_le_ceil t₂)
  have hL2lt : (⌊t₂⌋).toNat < arr.length := lt_of_le_of_lt hL2U2 hU2lt
  have hfl : ⌊t₁⌋ ≤ ⌊t₂⌋ := Int.floor_le_floor ht
  rw [getPercentile_eq arr p₁ h1 hp0 hp1', getPercentile_eq arr p₂ h1 hp20 hp2, ← hT1, ← hT2]
  rcases eq_or_lt_of_le hfl with hfeq | hflt
  · -- same floor segment
    have hwle : Int.fract t₁ ≤ Int.fract t₂ := by
      simp only [Int.fract, hfeq]
      linarith
    have hw10 : 0 ≤ Int.fract t₁ := Int.fract_nonneg t₁
    have hw21 : Int.fract t₂ < 1 := Int.fract_lt_one t₂
    by_cases hw2 : Int.fract t₂ = 0
    · have hw1 : Int.fract t₁ = 0 := le_antisymm (hw2 ▸ hwle) hw10
      rw [hw1, hw2, hfeq]
      ring_nf
      exact le_refl _
    · -- `t₂` is not integral, so its ceiling is its floor plus one
      have hc2 : ⌈t₂⌉ = ⌊t₂⌋ + 1 := by
        have hlt : (⌊t₂⌋ : ℚ) < t₂ := by
          rcases lt_or_eq_of_le (Int.floor_le t₂) with h | h
          · exact h
          · exact absurd (by simp only [Int.fract]; linarith [h]) hw2
        have h1' : ⌊t₂⌋ < ⌈t₂⌉ := by rw [Int.lt_ceil]; exact hlt
        have h2' : ⌈t₂⌉ ≤ ⌊t₂⌋ + 1 := Int.ceil_le_floor_add_one t₂
        omega
      by_cases hw1 : Int.fract t₁ = 0
      · -- `value₁` degenerates to the shared floor cell
        have hbase : arr.getD (⌊t₁⌋).toNat 0 ≤
            arr.getD (⌊t₂⌋).toNat 0 * (1 - Int.fract t₂) +
              arr.getD (⌈t₂⌉).toNat 0 * Int.fract t₂ := by
          have haLU : arr.getD (⌊t₂⌋).toNat 0 ≤ arr.getD (⌈t₂⌉).toNat 0 :=
            sorted_getD_mono hs hL2U2 hU2lt
          have : arr.getD (⌊t₁⌋).toNat 0 = arr.getD (⌊t₂⌋).toNat 0 := by rw [hfeq]
          rw [this]
          nlinarith [mul_nonneg (Int.fract_nonneg t₂) (sub_nonneg.2 haLU)]
        calc arr.getD (⌊t₁⌋).toNat 0 * (1 - Int.fract t₁) +
              arr.getD (⌈t₁⌉).toNat 0 * Int.fract t₁
            = arr.getD (⌊t₁⌋).toNat 0 := by rw [hw1]; ring
          _ ≤ _ := hbase
      · -- both interpolate strictly inside the same cell pair
        have hc1 : ⌈t₁⌉ = ⌊t₁⌋ + 1 := by
          have hlt : (⌊t₁⌋ : ℚ) < t₁ := by
            rcases lt_or_eq_of_le (Int.floor_le t₁) with h | h
            · exact h
            · exact absurd (by simp only [Int.fract]; linarith [h]) hw1
          have h1' : ⌊t₁⌋ < ⌈t₁⌉ := by rw [Int.lt_ceil]; exact hlt
          have h2' : ⌈t₁⌉ ≤ ⌊t₁⌋ + 1 := Int.ceil_le_floor_add_one t₁
          omega
        have hUeq : (⌈t₁⌉).toNat = (⌈t₂⌉).toNat := by rw [hc1, hc2, hfeq]
        have hLeq : (⌊t₁⌋).toNat = (⌊t₂⌋).toNat := by rw [hfeq]
        have haLU : arr.getD (⌊t₂⌋).toNat 0 ≤ arr.getD (⌈t₂⌉).toNat 0 :=
          sorted_getD_mono hs hL2U2 hU2lt
        rw [hUeq, hLeq]
        nlinarith [mul_nonneg (sub_nonneg.2 hwle) (sub_nonneg.2 haLU)]
  · -- the floor strictly increases: go through the boundary cells
    have hw10 : 0 ≤ Int.fract t₁ := Int.fract_nonneg t₁
    have hw11 : Int.fract t₁ < 1 := Int.fract_lt_one t₁
    have hw20 : 0 ≤ Int.fract t₂ := Int.fract_nonneg t₂
    have hw21 : Int.fract t₂ < 1 := Int.fract_lt_one t₂
    have hU1L2 : (⌈t₁⌉).toNat ≤ (⌊t₂⌋).toNat := by
      have h2' : ⌈t₁⌉ ≤ ⌊t₁⌋ + 1 := Int.ceil_le_floor_add_one t₁
      exact Int.toNat_le_toNat (by omega)
    have hL1U1 : (⌊t₁⌋).toNat ≤ (⌈t₁⌉).toNat := Int.toNat_le_toNat (Int.floor_le_ceil t₁)
    have haL1U1 : arr.getD (⌊t₁⌋).toNat 0 ≤ arr.getD (⌈t₁⌉).toNat 0 :=
      sorted_getD_mono hs hL1U1 hU1lt
    have haU1L2 : arr.getD (⌈t₁⌉).toNat 0 ≤ arr.getD (⌊t₂⌋).toNat 0 :=
      sorted_getD_mono hs hU1L2 hL2lt
    have haL2U2 : arr.getD (⌊t₂⌋).toNat 0 ≤ arr.getD (⌈t₂⌉).toNat 0 :=
      sorted_getD_mono hs hL2U2 hU2lt
    nlinarith [mul_nonneg (sub_nonneg.2 haL1U1) (by linarith : (0:ℚ) ≤ 1 - Int.fract t₁),
      mul_nonneg (sub_nonneg.2 haL2U2) hw20]

/-- C3 witness: a single-row, single-column numeric dataset is classified
numeric. -/
theorem profileColumn_classification_witness :
    (profileColumn [[("a", Cell.num 1)]] "a").type = ColType.numeric := by
  have h := profileColumn_classification [[("a", Cell.num 1)]] "a" (by decide)
  have hn : (numericValues [[("a", Cell.num 1)]] "a").length = 1 := rfl
  have hv : (nonNullValues [[("a", Cell.num 1)]] "a").length = 1 := rfl
  refine h.1.mpr ?_
  rw [hn, hv]
  norm_num

/-! ## C2 — column-stats invariants -/

theorem mergeSort_sorted_le (l : List ℚ) :
    (l.mergeSort (fun a b => decide (a ≤ b))).Sorted (· ≤ ·) := by
  have h := @List.sorted_mergeSort ℚ (fun a b => decide (a ≤ b))
    (fun a b c hab hbc => by
      simp only [decide_eq_true_eq] at *
      exact le_trans hab hbc)
    (fun a b => by
      simp only [Bool.or_eq_true, decide_eq_true_eq]
      exact le_total a b) l
  exact List.Pairwise.imp (fun hab => of_decide_eq_true hab) h

theorem percentile_ceil_lt (arr : List ℚ) (p : ℚ) (h1 : 1 ≤ arr.length)
    (hp0 : 0 ≤ p) (hp1 : p ≤ 100) :
    (⌈p / 100 * ((arr.length : ℚ) - 1)⌉).toNat < arr.length := by
  obtain ⟨ht0, htN⟩ := percentile_index_bounds h1 hp0 hp1 (p := p)
  have hc : ⌈p / 100 * ((arr.length : ℚ) - 1)⌉ ≤ (arr.length : ℤ) - 1 := by
    rw [Int.ceil_le]; push_cast; exact htN
  omega

theorem percentile_floor_lt (arr : List ℚ) (p : ℚ) (h1 : 1 ≤ arr.length)
    (hp0 : 0 ≤ p) (hp1 : p ≤ 100) :
    (⌊p / 100 * ((arr.length : ℚ) - 1)⌋).toNat < arr.length :=
  lt_of_le_of_lt (Int.toNat_le_toNat (Int.floor_le_ceil _))
    (percentile_ceil_lt arr p h1 hp0 hp1)

/-- The percentile of a sorted nonempty array is bounded by the extrema of
any list with the same members. -/
theorem getPercentile_mem_bounds (values : List ℚ) (p : ℚ)
    (hne : values ≠ []) (hp0 : 0 ≤ p) (hp1 : p ≤ 100) :
    jsMin values ≤ getPercentile (values.mergeSort (fun a b => decide (a ≤ b))) p ∧
      getPercentile (values.mergeSort (fun a b => decide (a ≤ b))) p ≤ jsMax values := by
  have hlen : (values.mergeSort (fun a b => decide (a ≤ b))).length = values.length :=
    List.length_mergeSort values
  have h1 : 1 ≤ (values.mergeSort (fun a b => decide (a ≤ b))).length := by
    rw [hlen]
    exact List.length_pos.2 hne
  have hsorted := mergeSort_sorted_le values
  obtain ⟨hlo, hhi⟩ := getPercentile_between _ hsorted p h1 hp0 hp1
  have hLmem : (values.mergeSort (fun a b => decide (a ≤ b))).getD
      (⌊p / 100 * (((values.mergeSort (fun a b => decide (a ≤ b))).length : ℚ) - 1)⌋).toNat 0
      ∈ values := by
    have := getD_mem (percentile_floor_lt _ p h1 hp0 hp1)
    exact (List.mem_mergeSort).1 this
  have hUmem : (values.mergeSort (fun a b => decide (a ≤ b))).getD
      (⌈p / 100 * (((values.mergeSort (fun a b => decide (a ≤ b))).length : ℚ) - 1)⌉).toNat 0
      ∈ values := by
    have := getD_mem (percentile_ceil_lt _ p h1 hp0 hp1)
    exact (List.mem_mergeSort).1 this
  exact ⟨le_trans (jsMin_le_mem values _ hLmem) hlo,
    le_trans hhi (mem_le_jsMax values _ hUmem)⟩

/-- The numeric-stats record of a nonempty value list satisfies the ordering
and moment invariants claimed by the specification. -/
theorem calculateNumericStats_spec (values : List ℚ) (hne : values ≠ []) :
    (calculateNumericStats values).min ≤ (calculateNumericStats values).q1 ∧
    (calculateNumericStats values).q1 ≤ (calculateNumericStats values).median ∧
    (calculateNumericStats values).median ≤ (calculateNumericStats values).q3 ∧
    (calculateNumericStats values).q3 ≤ (calculateNumericStats values).max ∧
    0 ≤ (calculateNumericStats values).variance ∧
    (calculateNumericStats values).stdDev =
      Real.sqrt ((calculateNumericStats values).variance : ℝ) ∧
    ((calculateNumericStats values).stdDev = 0 →
      (calculateNumericStats values).skewness = 0 ∧
        (calculateNumericStats values).kurtosis = 0) := by
  have hmin : (calculateNumericStats values).min = jsMin values := rfl
  have hmax : (calculateNumericStats values).max = jsMax values := rfl
  have hq1 : (calculateNumericStats values).q1 =
      getPercentile (values.mergeSort (fun a b => decide (a ≤ b))) 25 := rfl
  have hmed : (calculateNumericStats values).median =
      getPercentile (values.mergeSort (fun a b => decide (a ≤ b))) 50 := rfl
  have hq3 : (calculateNumericStats values).q3 =
      getPercentile (values.mergeSort (fun a b => decide (a ≤ b))) 75 := rfl
  have hvar : (calculateNumericStats values).variance =
      (values.map (fun v => (v - values.sum / (values.length : ℚ)) ^ 2)).sum /
        (values.length : ℚ) := rfl
  have hlen : (values.mergeSort (fun a b => decide (a ≤ b))).length = values.length :=
    List.length_mergeSort values
  have h1 : 1 ≤ (values.mergeSort (fun a b => decide (a ≤ b))).length := by
    rw [hlen]
    exact List.length_pos.2 hne
  have hsorted := mergeSort_sorted_le values
  refine ⟨?_, ?_, ?_, ?_, ?_, rfl, ?_⟩
  · rw [hmin, hq1]
    exact (getPercentile_mem_bounds values 25 hne (by norm_num) (by norm_num)).1
  · rw [hq1, hmed]
    exact getPercentile_mono _ hsorted h1 (by norm_num) (by norm_num) (by norm_num)
  · rw [hmed, hq3]
    exact getPercentile_mono _ hsorted h1 (by norm_num) (by norm_num) (by norm_num)
  · rw [hq3, hmax]
    exact (getPercentile_mem_bounds values 75 hne (by norm_num) (by norm_num)).2
  · rw [hvar]
    apply div_nonneg _ (by positivity)
    apply List.sum_nonneg
    intro x hx
    obtain ⟨v, _, rfl⟩ := List.mem_map.1 hx
    positivity
  · intro hsd
    have hsk : (calculateNumericStats values).skewness =
        calculateSkewness values ((calculateNumericStats values).mean)
          ((calculateNumericStats values).stdDev) := rfl
    have hku : (calculateNumericStats values).kurtosis =
        calculateKurtosis values ((calculateNumericStats values).mean)
          ((calculateNumericStats values).stdDev) := rfl
    rw [hsk, hku, calculateSkewness, calculateKurtosis, if_pos hsd, if_pos hsd]
    exact ⟨rfl, rfl⟩

/-- C2: every produced column-stats record satisfies
`missingCount + validCount = totalCount`, a missing percentage within
`[0, 100]`, `unique ≤ validCount`, and — when the column is classified
numeric — the ordered quantile chain, a nonnegative variance,
`stdDev = √variance`, and zero skewness/kurtosis whenever `stdDev = 0`. -/
theorem profileColumn_invariants (data : List Row) (col : String) (h : data ≠ []) :
    (profileColumn data col).missingCount + (profileColumn data col).validCount =
        (profileColumn data col).totalCount ∧
    0 ≤ (profileColumn data col).missingPercent ∧
    (profileColumn data col).missingPercent ≤ 100 ∧
    (profileColumn data col).unique ≤ (profileColumn data col).validCount ∧
    ((profileColumn data col).type = ColType.numeric →
      ∃ ns, (profileColumn data col).numeric = some ns ∧
        ns.min ≤ ns.q1 ∧ ns.q1 ≤ ns.median ∧ ns.median ≤ ns.q3 ∧ ns.q3 ≤ ns.max ∧
        0 ≤ ns.variance ∧ ns.stdDev = Real.sqrt (ns.variance : ℝ) ∧
        (ns.stdDev = 0 → ns.skewness = 0 ∧ ns.kurtosis = 0)) := by
  have hfilter_le : (nonNullValues data col).length ≤ (allValues data col).length :=
    List.length_filter_le _ _
  have htotal_pos : 0 < (allValues data col).length := by
    have : 0 < data.length := List.length_pos.2 h
    simpa [allValues] using this
  refine ⟨?_, ?_, ?_, ?_, ?_⟩
  · show (allValues data col).length - (nonNullValues data col).length +
        (nonNullValues data col).length = (allValues data col).length
    omega
  · show (0 : ℚ) ≤
        ((((allValues data col).length - (nonNullValues data col).length : ℕ) : ℚ) /
          ((allValues data col).length : ℚ)) * 100
    positivity
  · show ((((allValues data col).length - (nonNullValues data col).length : ℕ) : ℚ) /
        ((allValues data col).length : ℚ)) * 100 ≤ 100
    have hle : (((allValues data col).length - (nonNullValues data col).length : ℕ) : ℚ) ≤
        ((allValues data col).length : ℚ) := by
      exact_mod_cast Nat.sub_le _ _
    have hpos : (0 : ℚ) < ((allValues data col).length : ℚ) := by exact_mod_cast htotal_pos
    have : (((allValues data col).length - (nonNullValues data col).length : ℕ) : ℚ) /
        ((allValues data col).length : ℚ) ≤ 1 := (div_le_one hpos).2 hle
    linarith
  · show (nonNullValues data col).dedup.length ≤ (nonNullValues data col).length
    exact (List.dedup_sublist _).length_le
  · intro htype
    have hnum : isNumericCol data col = true := by
      by_contra hfalse
      have hcat : (profileColumn data col).type = ColType.categorical := by
        show (if isNumericCol data col then ColType.numeric else ColType.categorical) =
          ColType.categorical
        rw [if_neg hfalse]
      rw [htype] at hcat
      cases hcat
    have hand := hnum
    unfold isNumericCol at hand
    rw [Bool.and_eq_true] at hand
    have hpos : decide (0 < (numericValues data col).length) = true := hand.1
    have hnums_ne : numericValues data col ≠ [] :=
      List.ne_nil_of_length_pos (of_decide_eq_true hpos)
    refine ⟨calculateNumericStats (numericValues data col), ?_, ?_⟩
    · show (if isNumericCol data col && decide (0 < (numericValues data col).length) then
          some (calculateNumericStats (numericValues data col)) else none) =
        some (calculateNumericStats (numericValues data col))
      rw [hnum, hpos]
      rfl
    · exact calculateNumericStats_spec (numericValues data col) hnums_ne

/-- C2 witness: the invariants instantiated on a concrete two-row numeric
column. -/
theorem profileColumn_invariants_witness :
    (profileColumn [[("x", Cell.num 1)], [("x", Cell.num 3)], [("x", Cell.null)]] "x").missingCount +
        (profileColumn [[("x", Cell.num 1)], [("x", Cell.num 3)], [("x", Cell.null)]] "x").validCount =
        (profileColumn [[("x", Cell.num 1)], [("x", Cell.num 3)], [("x", Cell.null)]] "x").totalCount ∧
    0 ≤ (profileColumn [[("x", Cell.num 1)], [("x", Cell.num 3)], [("x", Cell.null)]] "x").missingPercent ∧
    (profileColumn [[("x", Cell.num 1)], [("x", Cell.num 3)], [("x", Cell.null)]] "x").missingPercent ≤ 100 ∧
    (profileColumn [[("x", Cell.num 1)], [("x", Cell.num 3)], [("x", Cell.null)]] "x").unique ≤
        (profileColumn [[("x", Cell.num 1)], [("x", Cell.num 3)], [("x", Cell.null)]] "x").validCount ∧
    ((profileColumn [[("x", Cell.num 1)], [("x", Cell.num 3)], [("x", Cell.null)]] "x").type = ColType.numeric →
      ∃ ns, (profileColumn [[("x", Cell.num 1)], [("x", Cell.num 3)], [("x", Cell.null)]] "x").numeric = some ns ∧
        ns.min ≤ ns.q1 ∧ ns.q1 ≤ ns.median ∧ ns.median ≤ ns.q3 ∧ ns.q3 ≤ ns.max ∧
        0 ≤ ns.variance ∧ ns.stdDev = Real.sqrt (ns.variance : ℝ) ∧
        (ns.stdDev = 0 → ns.skewness = 0 ∧ ns.kurtosis = 0)) :=
  profileColumn_invariants [[("x", Cell.num 1)], [("x", Cell.num 3)], [("x", Cell.null)]] "x"
    (by decide)

/-! ## Correlations (`calculateCorrelations`, profilerService.js:251-320) -/

/-- The `i < j` double loop over numeric columns
(profilerService.js:275-276), as the list of ordered index pairs. -/
def pairsOf {α : Type} : List α → List (α × α)
  | [] => []
  | x :: xs => xs.map (fun y => (x, y)) ++ pairsOf xs

/-- The per-column numeric sequence used by `calculateCorrelations`
(profilerService.js:280-283): `data.map(row => row[col])` filtered to
finite-number cells. -/
def numericSeries (data : List Row) (col : String) : List ℚ :=
  (data.map (fun row => rowGet row col)).filterMap Cell.toNum?

/-- `x.reduce((sum, xi) => sum + Math.pow(xi - avg, 2), 0)` — the squared
deviation sum inside `pearsonCorrelation`. -/
def devSq (l : List ℚ) (avg : ℚ) : ℚ :=
  (l.map (fun v => (v - avg) ^ 2)).sum

/-- `x.reduce((sum, xi, i) => sum + (xi - avgX) * (y[i] - avgY), 0)` — the
indexed access `y[i]` for `i < x.length` is the pointwise zip; both call
sites pass series of the same (prefix) length. -/
def covSum (x y : List ℚ) (avgX avgY : ℚ) : ℚ :=
  ((x.zip y).map (fun p => (p.1 - avgX) * (p.2 - avgY))).sum

/-- The `pearsonCorrelation` helper (profilerService.js:254-272).  The
source's locals `avgX`/`avgY`/`numerator`/`denomX`/`denomY` are inlined;
note that `avgY` divides by `n = x.length`, exactly as the source does, and
that the truthiness guard `denomX && denomY` is the conjunction of the two
square roots being nonzero; when it fails the helper returns `0`. -/
noncomputable def pearsonCorrelation (x y : List ℚ) : ℝ :=
  if x.length = 0 then 0
  else if Real.sqrt ((devSq x (x.sum / (x.length : ℚ)) : ℚ) : ℝ) ≠ 0 ∧
      Real.sqrt ((devSq y (y.sum / (x.length : ℚ)) : ℚ) : ℝ) ≠ 0 then
    ((covSum x y (x.sum / (x.length : ℚ)) (y.sum / (x.length : ℚ)) : ℚ) : ℝ) /
      (Real.sqrt ((devSq x (x.sum / (x.length : ℚ)) : ℚ) : ℝ) *
        Real.sqrt ((devSq y (y.sum / (x.length : ℚ)) : ℚ) : ℝ))
  else 0

/-- One emitted correlation record (profilerService.js:293-300). -/
structure CorrPair where
  pair : String
  colA : String
  colB : String
  correlation : ℝ
  strength : ℝ
  sampleSize : ℕ

/-- The loop body for one column pair (profilerService.js:277-302): filter
each column to its numeric cells, require both lengths `> 2`, align by
prefix of the shorter length, and emit the record.  The source's
`if (!isNaN(corr))` guard always holds in exact real arithmetic (see the
C10 theorem), so it drops out of the embedding. -/
noncomputable def corrStep (data : List Row) (pr : String × String) : Option CorrPair :=
  if 2 < (numericSeries data pr.1).length ∧ 2 < (numericSeries data pr.2).length then
    let minLength := min (numericSeries data pr.1).length (numericSeries data pr.2).length
    let corr := pearsonCorrelation
      ((numericSeries data pr.1).take minLength) ((numericSeries data pr.2).take minLength)
    some { pair := pr.1 ++ " & " ++ pr.2
           colA := pr.1
           colB := pr.2
           correlation := corr
           strength := |corr|
           sampleSize := minLength }
  else none

/-- The published correlation partitions (profilerService.js:310-319). -/
structure CorrelationResult where
  all : List CorrPair
  strong : List CorrPair
  moderate : List CorrPair
  weak : List CorrPair
  positive : List CorrPair
  negative : List CorrPair

/-- `calculateCorrelations` (profilerService.js:251-320): all pairwise
records, sorted by descending strength (`sort((a,b) => b.strength -
a.strength)` embedded as stable merge sort), with the derived partitions. -/
noncomputable def calculateCorrelations (data : List Row) (numericColumns : List String) :
    CorrelationResult :=
  let correlations := (pairsOf numericColumns).filterMap (corrStep data)
  let sortedCorrelations :=
    correlations.mergeSort (fun a b => decide (b.strength ≤ a.strength))
  { all := sortedCorrelations
    strong := sortedCorrelations.filter (fun c => decide ((0.7 : ℝ) < c.strength))
    moderate := sortedCorrelations.filter
      (fun c => decide ((0.3 : ℝ) < c.strength ∧ c.strength ≤ 0.7))
    weak := sortedCorrelations.filter (fun c => decide (c.strength ≤ (0.3 : ℝ)))
    positive := (sortedCorrelations.filter (fun c => decide ((0 : ℝ) < c.correlation))).take 5
    negative := (sortedCorrelations.filter (fun c => decide (c.correlation < (0 : ℝ)))).take 5 }

theorem corrStep_inv {data : List Row} {pr : String × String} {c : CorrPair}
    (h : corrStep data pr = some c) :
    2 < (numericSeries data pr.1).length ∧ 2 < (numericSeries data pr.2).length ∧
    c.colA = pr.1 ∧ c.colB = pr.2 ∧
    c.sampleSize = min (numericSeries data pr.1).length (numericSeries data pr.2).length ∧
    c.correlation = pearsonCorrelation ((numericSeries data pr.1).take c.sampleSize)
      ((numericSeries data pr.2).take c.sampleSize) ∧
    c.strength = |c.correlation| := by
  unfold corrStep at h
  split_ifs at h with hcond
  injection h with h
  subst h
  exact ⟨hcond.1, hcond.2, rfl, rfl, rfl, rfl, rfl⟩

theorem corrStep_some (data : List Row) (pr : String × String)
    (hA : 2 < (numericSeries data pr.1).length) (hB : 2 < (numericSeries data pr.2).length) :
    corrStep data pr = some
      { pair := pr.1 ++ " & " ++ pr.2
        colA := pr.1
        colB := pr.2
        correlation := pearsonCorrelation
          ((numericSeries data pr.1).take
            (min (numericSeries data pr.1).length (numericSeries data pr.2).length))
          ((numericSeries data pr.2).take
            (min (numericSeries data pr.1).length (numericSeries data pr.2).length))
        strength := |pearsonCorrelation
          ((numericSeries data pr.1).take
            (min (numericSeries data pr.1).length (numericSeries data pr.2).length))
          ((numericSeries data pr.2).take
            (min (numericSeries data pr.1).length (numericSeries data pr.2).length))|
        sampleSize := min (numericSeries data pr.1).length (numericSeries data pr.2).length } := by
  unfold corrStep
  rw [if_pos ⟨hA, hB⟩]

theorem mem_correlations_all {data : List Row} {cols : List String} {c : CorrPair} :
    c ∈ (calculateCorrelations data cols).all ↔
      c ∈ (pairsOf cols).filterMap (corrStep data) :=
  List.mem_mergeSort

theorem strength_partition_length (l : List CorrPair) :
    (l.filter (fun c => decide ((0.7 : ℝ) < c.strength))).length +
      (l.filter (fun c => decide ((0.3 : ℝ) < c.strength ∧ c.strength ≤ 0.7))).length +
      (l.filter (fun c => decide (c.strength ≤ (0.3 : ℝ)))).length = l.length := by
  induction l with
  | nil => rfl
  | cons a l ih =>
    rw [List.filter_cons, List.filter_cons, List.filter_cons]
    by_cases h1 : (0.7 : ℝ) < a.strength
    · have h2 : ¬ ((0.3 : ℝ) < a.strength ∧ a.strength ≤ 0.7) := fun hc => absurd h1 (not_lt.2 hc.2)
      have h3 : ¬ (a.strength ≤ (0.3 : ℝ)) := not_le.2 (lt_trans (by norm_num) h1)
      rw [if_pos (decide_eq_true h1), if_neg (fun hh => h2 (of_decide_eq_true hh)),
        if_neg (fun hh => h3 (of_decide_eq_true hh))]
      simp only [List.length_cons]
      omega
    · by_cases h2 : (0.3 : ℝ) < a.strength
      · have h3 : ¬ (a.strength ≤ (0.3 : ℝ)) := not_le.2 h2
        have hand : (0.3 : ℝ) < a.strength ∧ a.strength ≤ 0.7 := ⟨h2, le_of_not_lt h1⟩
        rw [if_neg (fun hh => h1 (of_decide_eq_true hh)), if_pos (decide_eq_true hand),
          if_neg (fun hh => h3 (of_decide_eq_true hh))]
        simp only [List.length_cons]
        omega
      · have h3 : a.strength ≤ (0.3 : ℝ) := le_of_not_lt h2
        have hand : ¬ ((0.3 : ℝ) < a.strength ∧ a.strength ≤ 0.7) := fun hc => h2 hc.1
        rw [if_neg (fun hh => h1 (of_decide_eq_true hh)),
          if_neg (fun hh => hand (of_decide_eq_true hh)), if_pos (decide_eq_true h3)]
        simp only [List.length_cons]
        omega

/-- C1: a correlation record is emitted for an ordered column pair exactly
when both independently null-filtered numeric sequences have at least 3
elements; every emitted record carries the prefix-aligned Pearson
coefficient, `strength = |r|` and `sampleSize = min(|A|,|B|)`; `all` is
sorted by descending strength; and `strong`/`moderate`/`weak` partition
`all` at the 0.7 / 0.3 thresholds. -/
theorem calculateCorrelations_spec (data : List Row) (cols : List String) :
    (∀ pr ∈ pairsOf cols,
      ((∃ c ∈ (calculateCorrelations data cols).all, c.colA = pr.1 ∧ c.colB = pr.2) ↔
        (3 ≤ (numericSeries data pr.1).length ∧ 3 ≤ (numericSeries data pr.2).length))) ∧
    (∀ c ∈ (calculateCorrelations data cols).all,
      c.strength = |c.correlation| ∧
      c.sampleSize = min (numericSeries data c.colA).length (numericSeries data c.colB).length ∧
      c.correlation = pearsonCorrelation
        ((numericSeries data c.colA).take c.sampleSize)
        ((numericSeries data c.colB).take c.sampleSize) ∧
      3 ≤ (numericSeries data c.colA).length ∧ 3 ≤ (numericSeries data c.colB).length) ∧
    (calculateCorrelations data cols).all.Sorted (fun a b => b.strength ≤ a.strength) ∧
    (∀ c, c ∈ (calculateCorrelations data cols).strong ↔
      c ∈ (calculateCorrelations data cols).all ∧ (0.7 : ℝ) < c.strength) ∧
    (∀ c, c ∈ (calculateCorrelations data cols).moderate ↔
      c ∈ (calculateCorrelations data cols).all ∧
        (0.3 : ℝ) < c.strength ∧ c.strength ≤ 0.7) ∧
    (∀ c, c ∈ (calculateCorrelations data cols).weak ↔
      c ∈ (calculateCorrelations data cols).all ∧ c.strength ≤ (0.3 : ℝ)) ∧
    (calculateCorrelations data cols).strong.length +
        (calculateCorrelations data cols).moderate.length +
        (calculateCorrelations data cols).weak.length =
      (calculateCorrelations data cols).all.length := by
  refine ⟨?_, ?_, ?_, ?_, ?_, ?_, ?_⟩
  · intro pr hpr
    constructor
    · rintro ⟨c, hc, hA, hB⟩
      obtain ⟨pr', hpr', hstep⟩ := List.mem_filterMap.1 (mem_correlations_all.1 hc)
      obtain ⟨h1, h2, hcolA, hcolB, -⟩ := corrStep_inv hstep
      rw [hA] at hcolA
      rw [hB] at hcolB
      rw [hcolA, hcolB]
      exact ⟨by omega, by omega⟩
    · rintro ⟨hA, hB⟩
      refine ⟨_, mem_correlations_all.2 (List.mem_filterMap.2
        ⟨pr, hpr, corrStep_some data pr (by omega) (by omega)⟩), rfl, rfl⟩
  · intro c hc
    obtain ⟨pr', hpr', hstep⟩ := List.mem_filterMap.1 (mem_correlations_all.1 hc)
    obtain ⟨h1, h2, hcolA, hcolB, hsz, hcorr, hstr⟩ := corrStep_inv hstep
    rw [← hcolA] at hsz hcorr h1
    rw [← hcolB] at hsz hcorr h2
    exact ⟨hstr, hsz, hcorr, by omega, by omega⟩
  · have h := @List.sorted_mergeSort CorrPair (fun a b => decide (b.strength ≤ a.strength))
      (fun a b c hab hbc => by
        simp only [decide_eq_true_eq] at *
        exact le_trans hbc hab)
      (fun a b => by
        simp only [Bool.or_eq_true, decide_eq_true_eq]
        exact le_total b.strength a.strength)
      ((pairsOf cols).filterMap (corrStep data))
    exact List.Pairwise.imp (fun hab => of_decide_eq_true hab) h
  · intro c
    rw [show (calculateCorrelations data cols).strong =
        (calculateCorrelations data cols).all.filter
          (fun c => decide ((0.7 : ℝ) < c.strength)) from rfl, List.mem_filter]
    simp [decide_eq_true_eq]
  · intro c
    rw [show (calculateCorrelations data cols).moderate =
        (calculateCorrelations data cols).all.filter
          (fun c => decide ((0.3 : ℝ) < c.strength ∧ c.strength ≤ 0.7)) from rfl,
      List.mem_filter]
    simp [decide_eq_true_eq]
  · intro c
    rw [show (calculateCorrelations data cols).weak =
        (calculateCorrelations data cols).all.filter
          (fun c => decide (c.strength ≤ (0.3 : ℝ))) from rfl, List.mem_filter]
    simp [decide_eq_true_eq]
  · exact strength_partition_length _

/-- C1 witness dataset: two perfectly correlated 3-row numeric columns. -/
def corrWitnessData : List Row :=
  [[("x", Cell.num 1), ("y", Cell.num 2)],
   [("x", Cell.num 2), ("y", Cell.num 4)],
   [("x", Cell.num 3), ("y", Cell.num 6)]]

/-- C1 witness: on a concrete 3-row dataset the `x & y` pair is emitted. -/
theorem calculateCorrelations_spec_witness :
    ∃ c ∈ (calculateCorrelations corrWitnessData ["x", "y"]).all,
      c.colA = "x" ∧ c.colB = "y" := by
  have h := (calculateCorrelations_spec corrWitnessData ["x", "y"]).1 ("x", "y") (by decide)
  refine h.mpr ⟨?_, ?_⟩
  · have hx : (numericSeries corrWitnessData ("x", "y").1).length = 3 := rfl
    omega
  · have hy : (numericSeries corrWitnessData ("x", "y").2).length = 3 := rfl
    omega

/-! ## C10 — the Pearson helper on constant series -/

theorem list_sum_const {c : ℚ} : ∀ {l : List ℚ}, (∀ v ∈ l, v = c) → l.sum = c * l.length
  | [], _ => by simp
  | v :: l, h => by
    have hv : v = c := h v (List.mem_cons_self v l)
    have hrest : l.sum = c * l.length := list_sum_const (fun w hw => h w (List.mem_cons_of_mem v hw))
    rw [List.sum_cons, hv, hrest, List.length_cons]
    push_cast
    ring

theorem pearsonCorrelation_eq_zero_of_const (x y : List ℚ) (hlen : x.length = y.length)
    (hconst : (∃ cst, ∀ v ∈ x, v = cst) ∨ (∃ cst, ∀ v ∈ y, v = cst)) :
    pearsonCorrelation x y = 0 := by
  unfold pearsonCorrelation
  split_ifs with hn hd
  · rfl
  · exfalso
    rcases hconst with ⟨cst, hc⟩ | ⟨cst, hc⟩
    · apply hd.1
      have havg : x.sum / (x.length : ℚ) = cst := by
        rw [list_sum_const hc]
        field_simp
      have hdev : devSq x (x.sum / (x.length : ℚ)) = 0 := by
        rw [havg]
        apply List.sum_eq_zero
        intro z hz
        obtain ⟨v, hv, rfl⟩ := List.mem_map.1 hz
        rw [hc v hv]
        ring
      rw [hdev]
      simp
    · apply hd.2
      have havg : y.sum / (x.length : ℚ) = cst := by
        rw [list_sum_const hc, ← hlen]
        field_simp
      have hdev : devSq y (y.sum / (x.length : ℚ)) = 0 := by
        rw [havg]
        apply List.sum_eq_zero
        intro z hz
        obtain ⟨v, hv, rfl⟩ := List.mem_map.1 hz
        rw [hc v hv]
        ring
      rw [hdev]
      simp
  · rfl

/-- C10: the Pearson helper returns 0 (not NaN) whenever either
prefix-aligned series is constant; in general it either takes the guarded
zero branch or divides by a provably nonzero denominator, so the source's
`isNaN` discard is unreachable; and a constant pair is still emitted, with
correlation 0, into the `weak` partition. -/
theorem pearson_constant_series (data : List Row) (cols : List String) :
    (∀ x y : List ℚ, x.length = y.length →
      ((∃ cst, ∀ v ∈ x, v = cst) ∨ (∃ cst, ∀ v ∈ y, v = cst)) →
      pearsonCorrelation x y = 0) ∧
    (∀ x y : List ℚ, pearsonCorrelation x y = 0 ∨
      (Real.sqrt ((devSq x (x.sum / (x.length : ℚ)) : ℚ) : ℝ) ≠ 0 ∧
       Real.sqrt ((devSq y (y.sum / (x.length : ℚ)) : ℚ) : ℝ) ≠ 0 ∧
       pearsonCorrelation x y =
         ((covSum x y (x.sum / (x.length : ℚ)) (y.sum / (x.length : ℚ)) : ℚ) : ℝ) /
           (Real.sqrt ((devSq x (x.sum / (x.length : ℚ)) : ℚ) : ℝ) *
            Real.sqrt ((devSq y (y.sum / (x.length : ℚ)) : ℚ) : ℝ)))) ∧
    (∀ pr ∈ pairsOf cols,
      3 ≤ (numericSeries data pr.1).length → 3 ≤ (numericSeries data pr.2).length →
      ((∃ cst, ∀ v ∈ (numericSeries data pr.1).take
          (min (numericSeries data pr.1).length (numericSeries data pr.2).length), v = cst) ∨
       (∃ cst, ∀ v ∈ (numericSeries data pr.2).take
          (min (numericSeries data pr.1).length (numericSeries data pr.2).length), v = cst)) →
      ∃ c ∈ (calculateCorrelations data cols).weak,
        c.colA = pr.1 ∧ c.colB = pr.2 ∧ c.correlation = 0) := by
  refine ⟨pearsonCorrelation_eq_zero_of_const, ?_, ?_⟩
  · intro x y
    unfold pearsonCorrelation
    split_ifs with hn hd
    · left
      rfl
    · right
      exact ⟨hd.1, hd.2, rfl⟩
    · left
      rfl
  · intro pr hpr hA hB hconst
    have hA2 : 2 < (numericSeries data pr.1).length := by omega
    have hB2 : 2 < (numericSeries data pr.2).length := by omega
    have hstep := corrStep_some data pr hA2 hB2
    have hlenAt : ((numericSeries data pr.1).take
          (min (numericSeries data pr.1).length (numericSeries data pr.2).length)).length =
        ((numericSeries data pr.2).take
          (min (numericSeries data pr.1).length (numericSeries data pr.2).length)).length := by
      simp only [List.length_take]
      omega
    have hzero := pearsonCorrelation_eq_zero_of_const _ _ hlenAt hconst
    obtain ⟨c, hc⟩ : ∃ c, corrStep data pr = some c := ⟨_, hstep⟩
    obtain ⟨-, -, hcolA, hcolB, hsz, hcorr, hstr⟩ := corrStep_inv hc
    rw [hsz] at hcorr
    have hc0 : c.correlation = 0 := by rw [hcorr]; exact hzero
    have hcw : c ∈ (calculateCorrelations data cols).weak := by
      refine List.mem_filter.2 ⟨mem_correlations_all.2 (List.mem_filterMap.2 ⟨pr, hpr, hc⟩), ?_⟩
      refine decide_eq_true ?_
      rw [hstr, hc0]
      norm_num
    exact ⟨c, hcw, hcolA, hcolB, hc0⟩

/-- C10 witness dataset: `x` is constant, `y` varies. -/
def constWitnessData : List Row :=
  [[("x", Cell.num 5), ("y", Cell.num 1)],
   [("x", Cell.num 5), ("y", Cell.num 7)],
   [("x", Cell.num 5), ("y", Cell.num 2)]]

/-- C10 witness: the constant column still yields an emitted pair, with
correlation 0, in the weak partition. -/
theorem pearson_constant_series_witness :
    ∃ c ∈ (calculateCorrelations constWitnessData ["x", "y"]).weak,
      c.colA = "x" ∧ c.colB = "y" ∧ c.correlation = 0 := by
  have h := (pearson_constant_series constWitnessData ["x", "y"]).2.2 ("x", "y") (by decide)
  refine h ?_ ?_ (Or.inl ⟨5, by decide⟩)
  · have hx : (numericSeries constWitnessData ("x", "y").1).length = 3 := rfl
    omega
  · have hy : (numericSeries constWitnessData ("x", "y").2).length = 3 := rfl
    omega

/-! ## Sampling service (`SamplingService`, part_007) -/

/-- One step of the linear congruential generator inside `seededRandom`
(part_007:195-201): `s = (s * 9301 + 49297) % 233280`. -/
def lcg (s : ℕ) : ℕ := (s * 9301 + 49297) % 233280

/-- `let s = seed || 1` — a zero (falsy) seed is replaced by 1. -/
def seedInit (seed : ℕ) : ℕ := if seed = 0 then 1 else seed

/-- The generator's internal state after `n` draws; the JavaScript closure's
mutable `s` becomes explicit iteration. -/
def lcgState (seed : ℕ) : ℕ → ℕ
  | 0 => seedInit seed
  | n + 1 => lcg (lcgState seed n)

/-- The value returned by the `n`-th call (0-indexed) of a generator built
by `seededRandom(seed)`: the updated state divided by 233280. -/
def seededRandomOut (seed n : ℕ) : ℚ := (lcgState seed (n + 1) : ℚ) / 233280

/-- `randomSample` (part_007:167-188).  A fresh generator is seeded on every
call; each row is kept when `random() < rate`.  The source's
`rate > 1 && Number.isInteger(rate)` rescaling branch is dead code (it is
preceded by `if (rate >= 1) return [...data]`) and drops out. -/
def randomSample (rows : List Row) (rate : ℚ) (seed : ℕ) : List Row :=
  if 1 ≤ rate then rows
  else
    (rows.foldl
      (fun (acc : List Row × ℕ) row =>
        let s := lcg acc.2
        if (s : ℚ) / 233280 < rate then (acc.1 ++ [row], s) else (acc.1, s))
      ([], seedInit seed)).1

/-- The grouping key `row[stratColumn] || 'null'` (part_007:102): any falsy
cell (null/undefined, `0`, the empty string) maps to the sentinel string
`"null"`; other cells are used as object keys, i.e. stringified (rational
rendering stands in for JavaScript float formatting; no claim depends on
numeric keys). -/
def stratKey (c : Cell) : String :=
  match c with
  | Cell.null => "null"
  | Cell.num q => if q = 0 then "null" else toString q
  | Cell.str s => if s = "" then "null" else s

/-- Appending a row to its group in an insertion-ordered association list —
the object accumulation of part_007:100-107. -/
def upsertGroup : List (String × List Row) → String → Row → List (String × List Row)
  | [], k, r => [(k, [r])]
  | (k', rs) :: rest, k, r =>
    if k' = k then (k', rs ++ [r]) :: rest else (k', rs) :: upsertGroup rest k r

/-- The `stratGroups` object of `stratifiedSample` (part_007:100-107):
non-numeric string keys enumerate in insertion order (the JavaScript
integer-like-key reordering does not arise for the keys exercised by the
claims). -/
def stratGroups (data : List Row) (col : String) : List (String × List Row) :=
  data.foldl (fun acc row => upsertGroup acc (stratKey (rowGet row col)) row) []

/-- JavaScript `Math.round` (round half toward positive infinity), exact on
the nonnegative rationals used here. -/
def jsRound (q : ℚ) : ℤ := ⌊q + 1 / 2⌋

/-- `canStratify` (part_007:67-81): some column of the first 100 rows has
between 2 and 20 distinct non-null values.  (The JS filter keeps empty
strings here — it only drops `null`/`undefined`.) -/
def canStratify (data : List Row) : Bool :=
  match data with
  | [] => false
  | firstRow :: _ =>
    (rowKeys firstRow).any (fun key =>
      let uniqueValues :=
        (((data.take 100).map (fun row => rowGet row key)).filter
          (fun v => decide (v ≠ Cell.null))).dedup
      decide (1 < uniqueValues.length) && decide (uniqueValues.length ≤ 20))

/-- One candidate record of `findStratificationColumn` (part_007:133-144). -/
structure StratCandidate where
  name : String
  uniqueCount : ℕ
  uniqueRatio : ℚ
  nullRatio : ℚ
deriving DecidableEq, Repr

/-- `findStratificationColumn` (part_007:126-158): among columns with
2–20 distinct non-null values and null ratio below 0.2, pick the one whose
unique ratio is closest to 0.2 (stable ascending sort on the distance). -/
def findStratificationColumn (data : List Row) : Option String :=
  match data with
  | [] => none
  | firstRow :: _ =>
    let columnStats := (rowKeys firstRow).map (fun key =>
      let values := data.map (fun row => rowGet row key)
      let nonNull := values.filter (fun v => decide (v ≠ Cell.null))
      let uniqueCount := nonNull.dedup.length
      { name := key
        uniqueCount := uniqueCount
        uniqueRatio :=
          if 0 < nonNull.length then (uniqueCount : ℚ) / (nonNull.length : ℚ) else 0
        nullRatio := ((values.length - nonNull.length : ℕ) : ℚ) / (values.length : ℚ) :
        StratCandidate })
    let candidates := (columnStats.filter (fun c =>
        decide (2 ≤ c.uniqueCount) && decide (c.uniqueCount ≤ 20) &&
          decide (c.nullRatio < (0.2 : ℚ)))).mergeSort
      (fun a b => decide (|a.uniqueRatio - 0.2| ≤ |b.uniqueRatio - 0.2|))
    (candidates.head?).map (fun c => c.name)

/-- `stratifiedSample` (part_007:90-119): group by the chosen column's key,
then draw an independent `randomSample` from each group with rate
`groupSampleSize / rows.length`, concatenating in insertion order. -/
def stratifiedSample (data : List Row) (rate : ℚ) (seed : ℕ) : List Row :=
  match findStratificationColumn data with
  | none => randomSample data rate seed
  | some stratColumn =>
    (stratGroups data stratColumn).flatMap (fun g =>
      let groupSampleSize := max 1 (jsRound ((g.2.length : ℚ) * rate)).toNat
      randomSample g.2 ((groupSampleSize : ℚ) / (g.2.length : ℚ)) seed)

/-- Options of `createSample` (part_007:12-18), with the source defaults. -/
structure SampleOptions where
  maxSampleSize : ℕ := 5000
  stratify : Bool := true
  randomSeed : ℕ := 42
  preserveDistribution : Bool := true
deriving DecidableEq, Repr

/-- The metadata object of `createSample`; keys absent on a code path are
`none`. -/
structure SampleMetadata where
  samplingRate : ℚ
  originalSize : ℕ
  isSampled : Option Bool := none
  sampleSize : Option ℕ := none
  stratified : Option Bool := none
  preservedDistribution : Option Bool := none
deriving DecidableEq, Repr

/-- The `{sample, metadata}` return shape of `createSample`. -/
structure SampleResult where
  sample : List Row
  metadata : SampleMetadata
deriving DecidableEq, Repr

/-- `createSample` (part_007:12-60). -/
def createSample (data : List Row) (opts : SampleOptions) : SampleResult :=
  if data = [] then
    { sample := [], metadata := { samplingRate := 0, originalSize := 0 } }
  else if data.length ≤ opts.maxSampleSize then
    { sample := data
      metadata :=
        { samplingRate := 1, originalSize := data.length, isSampled := some false } }
  else
    let samplingRate : ℚ := (opts.maxSampleSize : ℚ) / (data.length : ℚ)
    let sample :=
      if opts.stratify && canStratify data then
        stratifiedSample data samplingRate opts.randomSeed
      else randomSample data samplingRate opts.randomSeed
    { sample := sample
      metadata :=
        { samplingRate := samplingRate
          originalSize := data.length
          isSampled := some true
          sampleSize := some sample.length
          stratified := some (opts.stratify && canStratify data)
          preservedDistribution := some opts.preserveDistribution } }

/-- C5 failing input: a stratification column `g` with partitions
`a` (3 rows) and `b` (1 row). -/
def rowGA : Row := [("g", Cell.str "a")]

/-- Second row kind of the C5 failing input. -/
def rowGB : Row := [("g", Cell.str "b")]

/-- The C5 failing dataset (4 rows, sampled down to maxSampleSize 2). -/
def stratWitnessData : List Row := [rowGA, rowGA, rowGA, rowGB]

/-- C5: evaluated at the failing input, the stratified path is taken, the
partition keyed `a` is non-empty (3 rows), yet the produced sample contains
no row of it — the per-group `Math.max(1, …)` floor is fed to the Bernoulli
sampler as a rate, which can (and here does) select zero rows, so the
"at least one row per non-empty partition" guarantee fails. -/
theorem stratifiedSample_misses_partition :
    (stratWitnessData.filter (fun r => decide (stratKey (rowGet r "g") = "a"))).length = 3 ∧
    (createSample stratWitnessData
        { maxSampleSize := 2, stratify := true, randomSeed := 42,
          preserveDistribution := true }).metadata.stratified = some true ∧
    (createSample stratWitnessData
        { maxSampleSize := 2, stratify := true, randomSeed := 42,
          preserveDistribution := true }).sample.filter
        (fun r => decide (stratKey (rowGet r "g") = "a")) = [] ∧
    (createSample stratWitnessData
        { maxSampleSize := 2, stratify := true, randomSeed := 42,
          preserveDistribution := true }).sample = [rowGB] := by
  have hflt : List.filter (fun v => !decide (v = Cell.null))
      [Cell.str "a", Cell.str "a", Cell.str "a", Cell.str "b"] =
      [Cell.str "a", Cell.str "a", Cell.str "a", Cell.str "b"] := by decide
  have hdedup : List.dedup [Cell.str "a", Cell.str "a", Cell.str "a", Cell.str "b"] =
      [Cell.str "a", Cell.str "b"] := by decide
  have hfind : findStratificationColumn stratWitnessData = some "g" := by
    norm_num [findStratificationColumn, stratWitnessData, rowGA, rowGB, rowKeys, rowGet,
      List.find?, List.mergeSort_singleton, hflt, hdedup]
  have hcan : canStratify stratWitnessData = true := by decide
  have hgroups : stratGroups stratWitnessData "g" =
      [("a", [rowGA, rowGA, rowGA]), ("b", [rowGB])] := by decide
  have hsampA : randomSample [rowGA, rowGA, rowGA] ((2 : ℚ)/3) 42 = [] := by
    rw [randomSample, if_neg (by norm_num : ¬ (1:ℚ) ≤ (2:ℚ)/3)]
    simp only [List.foldl_cons, List.foldl_nil, seedInit]
    norm_num [lcg]
  have hsampB : randomSample [rowGB] (1 : ℚ) 42 = [rowGB] := by
    rw [randomSample, if_pos (le_refl (1:ℚ))]
  have hstrat : stratifiedSample stratWitnessData ((1 : ℚ)/2) 42 = [rowGB] := by
    unfold stratifiedSample
    simp only [hfind, hgroups, List.flatMap_cons, List.flatMap_nil]
    norm_num [jsRound, show Int.toNat 2 = 2 from rfl, show Int.toNat 1 = 1 from rfl, hsampA, hsampB]
  have hsample : (createSample stratWitnessData
      { maxSampleSize := 2, stratify := true, randomSeed := 42,
        preserveDistribution := true }).sample = [rowGB] := by
    unfold createSample
    rw [if_neg (by decide : ¬ (stratWitnessData = [])),
      if_neg (by decide : ¬ (stratWitnessData.length ≤
        ({ maxSampleSize := 2, stratify := true, randomSeed := 42,
           preserveDistribution := true } : SampleOptions).maxSampleSize))]
    simp only [hcan, Bool.and_self, if_pos]
    norm_num [show stratWitnessData.length = 4 from rfl, hstrat]
  have hmeta : (createSample stratWitnessData
      { maxSampleSize := 2, stratify := true, randomSeed := 42,
        preserveDistribution := true }).metadata.stratified = some true := by
    unfold createSample
    rw [if_neg (by decide : ¬ (stratWitnessData = [])),
      if_neg (by decide : ¬ (stratWitnessData.length ≤
        ({ maxSampleSize := 2, stratify := true, randomSeed := 42,
           preserveDistribution := true } : SampleOptions).maxSampleSize))]
    simp [hcan]
  refine ⟨by decide, hmeta, ?_, hsample⟩
  rw [hsample]
  decide

/-- C8: the seeded generator is fully determined by its seed — the `n`-th
output is the explicit LCG iterate `s ← (s·9301 + 49297) mod 233280`
rendered as `s / 233280`, always inside `[0, 1)` — and `createSample` is a
pure function of its arguments, so identical arguments give identical
samples and metadata. -/
theorem seededRandom_reproducible :
    (∀ seed n : ℕ,
      seededRandomOut seed n = ((lcgState seed n * 9301 + 49297) % 233280 : ℕ) / (233280 : ℚ) ∧
      0 ≤ seededRandomOut seed n ∧ seededRandomOut seed n < 1) ∧
    (∀ (data : List Row) (opts : SampleOptions), createSample data opts = createSample data opts) := by
  refine ⟨fun seed n => ⟨rfl, ?_, ?_⟩, fun data opts => rfl⟩
  · unfold seededRandomOut
    positivity
  · have hlt : lcgState seed (n + 1) < 233280 := by
      show lcg (lcgState seed n) < 233280
      exact Nat.mod_lt _ (by norm_num)
    unfold seededRandomOut
    rw [div_lt_one (by norm_num)]
    exact_mod_cast hlt

/-! ## C4 — worker-pool combiner (`combineResults`, workerService.js:203-232) -/

/-- The object returned by the `calculateCorrelations` branch of
`combineResults` (workerService.js:215-219).  Only the `all` key is written
there; the partition keys of the profiler's correlation result are absent,
and the `!results || results.length === 0` early return produces an empty
object (every field `none`). -/
structure CombinedCorrelations where
  all : Option (List CorrPair)
  strong : Option (List CorrPair)
  moderate : Option (List CorrPair)
  weak : Option (List CorrPair)
  positive : Option (List CorrPair)
  negative : Option (List CorrPair)

/-- The `calculateCorrelations` case of `combineResults`
(workerService.js:203-219): the worker partials are the profiler's
correlation objects, and `result.all || []` reads their (always present)
`all` field.  The other `taskName` branches operate on untyped shapes not
referenced by the claims. -/
def combineResults (results : List CorrelationResult) : CombinedCorrelations :=
  if results.length = 0 then
    { all := none, strong := none, moderate := none, weak := none,
      positive := none, negative := none }
  else
    { all := some (results.flatMap (fun r => r.all)), strong := none, moderate := none,
      weak := none, positive := none, negative := none }

/-- A weak pair carried by the first worker partial in the C4
counterexample. -/
noncomputable def cWeakPair : CorrPair :=
  { pair := "a & b", colA := "a", colB := "b", correlation := 0.2, strength := 0.2,
    sampleSize := 3 }

/-- A strong pair carried by the second worker partial. -/
noncomputable def cStrongPair : CorrPair :=
  { pair := "c & d", colA := "c", colB := "d", correlation := 0.9, strength := 0.9,
    sampleSize := 3 }

/-- First worker partial result for C4. -/
noncomputable def workerResult1 : CorrelationResult :=
  { all := [cWeakPair], strong := [], moderate := [], weak := [cWeakPair],
    positive := [cWeakPair], negative := [] }

/-- Second worker partial result for C4. -/
noncomputable def workerResult2 : CorrelationResult :=
  { all := [cStrongPair], strong := [cStrongPair], moderate := [], weak := [],
    positive := [cStrongPair], negative := [] }

/-- C4 counterexample: combining two partials whose strengths are 0.2 and
0.9 (in that order) yields an `all` list that is *not* re-sorted by
descending strength, and no partition keys at all — contradicting the
claim that the combiner re-sorts and recomputes the partitions. -/
theorem combineResults_counterexample :
    (combineResults [workerResult1, workerResult2]).all = some [cWeakPair, cStrongPair] ∧
    ¬ List.Sorted (fun a b => b.strength ≤ a.strength) [cWeakPair, cStrongPair] ∧
    (combineResults [workerResult1, workerResult2]).strong = none ∧
    (combineResults [workerResult1, workerResult2]).moderate = none ∧
    (combineResults [workerResult1, workerResult2]).weak = none ∧
    (combineResults [workerResult1, workerResult2]).positive = none ∧
    (combineResults [workerResult1, workerResult2]).negative = none := by
  refine ⟨rfl, ?_, rfl, rfl, rfl, rfl, rfl⟩
  intro hs
  have h := List.rel_of_sorted_cons hs cStrongPair (by simp)
  simp only [cWeakPair, cStrongPair] at h
  norm_num at h

/-- C4 (amended): for a nonempty list of worker partials under
`taskName = calculateCorrelations`, the combiner returns only the
concatenation of the partial `all` arrays in input order — it neither
re-sorts nor recomputes any partition. -/
theorem combineResults_amended (results : List CorrelationResult) (h : results ≠ []) :
    (combineResults results).all = some (results.flatMap (fun r => r.all)) ∧
    (combineResults results).strong = none ∧
    (combineResults results).moderate = none ∧
    (combineResults results).weak = none ∧
    (combineResults results).positive = none ∧
    (combineResults results).negative = none := by
  unfold combineResults
  rw [if_neg (fun hl => h (List.length_eq_zero.1 hl))]
  exact ⟨rfl, rfl, rfl, rfl, rfl, rfl⟩

/-- C4 amended-claim witness at a concrete singleton partial list. -/
theorem combineResults_amended_witness :
    (combineResults [workerResult1]).all = some [cWeakPair] ∧
    (combineResults [workerResult1]).strong = none :=
  have h := combineResults_amended [workerResult1] (List.cons_ne_nil _ _)
  ⟨h.1, h.2.1⟩

/-! ## C6/C7 — cache service (`cacheService.js`) -/

/-- One in-memory index entry: `{path, timestamp}` (cacheService.js:57-60). -/
structure CacheInfo where
  path : String
  timestamp : ℤ
deriving DecidableEq, Repr

/-- What a read of a cache file can encounter: a readable, parseable entry
carrying a result; readable-but-unparseable content (`JSON.parse` throws);
or a file whose read itself throws.  A missing file is absence from the
file map. -/
inductive FileContent (α : Type) where
  | good : α → FileContent α
  | corrupt : FileContent α
  | unreadable : FileContent α
deriving DecidableEq, Repr

/-- The cache state seen by `getCachedResult`: the in-memory
`cacheMap` index and the on-disk files, keyed by path. -/
structure CacheState (α : Type) where
  cacheMap : List (String × CacheInfo)
  files : List (String × FileContent α)
deriving DecidableEq, Repr

/-- `this.ttl = 24 * 60 * 60 * 1000` (cacheService.js:15). -/
def ttl : ℤ := 24 * 60 * 60 * 1000

/-- `Map.get` / keyed lookup over an association list. -/
def mapLookup {β : Type} (m : List (String × β)) (k : String) : Option β :=
  (m.find? (fun e => e.1 == k)).map (fun e => e.2)

/-- `Map.delete` / `fs.unlinkSync`: drop a key from an association list. -/
def mapDelete {β : Type} (m : List (String × β)) (k : String) : List (String × β) :=
  m.filter (fun e => e.1 != k)

/-- `getCachedResult` (cacheService.js:104-138) as a state transformer:
unknown fingerprint → plain miss; indexed-but-missing file → miss plus
index eviction; TTL expiry (age computed from the *index* timestamp)
→ miss plus index eviction plus file deletion; a read error or corrupted
content inside the `try` → the `catch` returns a miss and touches nothing.
The `utimesSync` mtime touch on a hit has no observable effect on this
state (the index timestamp is not updated by the source either). -/
def getCachedResult {α : Type} (st : CacheState α) (now : ℤ) (fingerprint : String) :
    Option α × CacheState α :=
  match mapLookup st.cacheMap fingerprint with
  | none => (none, st)
  | some cacheInfo =>
    match mapLookup st.files cacheInfo.path with
    | none => (none, { st with cacheMap := mapDelete st.cacheMap fingerprint })
    | some content =>
      if ttl < now - cacheInfo.timestamp then
        (none, { cacheMap := mapDelete st.cacheMap fingerprint,
                 files := mapDelete st.files cacheInfo.path })
      else
        match content with
        | FileContent.good result => (some result, st)
        | FileContent.corrupt => (none, st)
        | FileContent.unreadable => (none, st)

/-- C6 counterexample state: a fresh (non-expired) index entry whose file
exists but holds unparseable content. -/
def corruptCacheState : CacheState ℕ :=
  { cacheMap := [("fp", { path := "p", timestamp := 0 })],
    files := [("p", FileContent.corrupt)] }

/-- C6 counterexample: on corrupted content within TTL, `getCachedResult`
reports a miss but neither deletes the file nor evicts the index entry —
refuting the claim that it does both on every corrupted read. -/
theorem getCachedResult_counterexample :
    (getCachedResult corruptCacheState 5 "fp").1 = none ∧
    mapLookup (getCachedResult corruptCacheState 5 "fp").2.cacheMap "fp" =
      some { path := "p", timestamp := 0 } ∧
    mapLookup (getCachedResult corruptCacheState 5 "fp").2.files "p" =
      some FileContent.corrupt := by
  refine ⟨rfl, ?_, ?_⟩ <;> decide

/-- C6 (amended): a missing indexed file yields a miss plus index eviction
(files untouched); TTL expiry yields a miss plus index eviction plus file
deletion; a read error or corrupted content within TTL yields a miss with
the state unchanged; and a parseable entry within TTL is returned as a hit
with the state unchanged. -/
theorem getCachedResult_amended {α : Type} (st : CacheState α) (now : ℤ) (fp : String)
    (info : CacheInfo) (h : mapLookup st.cacheMap fp = some info) :
    (mapLookup st.files info.path = none →
      (getCachedResult st now fp).1 = none ∧
      (getCachedResult st now fp).2.cacheMap = mapDelete st.cacheMap fp ∧
      (getCachedResult st now fp).2.files = st.files) ∧
    (∀ content, mapLookup st.files info.path = some content →
      ttl < now - info.timestamp →
      (getCachedResult st now fp).1 = none ∧
      (getCachedResult st now fp).2.cacheMap = mapDelete st.cacheMap fp ∧
      (getCachedResult st now fp).2.files = mapDelete st.files info.path) ∧
    ((mapLookup st.files info.path = some FileContent.corrupt ∨
        mapLookup st.files info.path = some FileContent.unreadable) →
      now - info.timestamp ≤ ttl →
      getCachedResult st now fp = (none, st)) ∧
    (∀ result, mapLookup st.files info.path = some (FileContent.good result) →
      now - info.timestamp ≤ ttl →
      getCachedResult st now fp = (some result, st)) := by
  refine ⟨?_, ?_, ?_, ?_⟩
  · intro hfile
    unfold getCachedResult
    simp only [h, hfile]
    refine ⟨?_, ?_, ?_⟩ <;> trivial
  · intro content hfile hexp
    unfold getCachedResult
    simp only [h, hfile]
    rw [if_pos hexp]
    refine ⟨?_, ?_, ?_⟩ <;> trivial
  · intro hfile hfresh
    unfold getCachedResult
    rcases hfile with hfile | hfile <;>
      · simp only [h, hfile]
        rw [if_neg (not_lt.2 hfresh)]
  · intro result hfile hfresh
    unfold getCachedResult
    simp only [h, hfile]
    rw [if_neg (not_lt.2 hfresh)]

/-- C6 witness state: an index entry whose file is missing. -/
def missingFileCacheState : CacheState ℕ :=
  { cacheMap := [("fp", { path := "p", timestamp := 0 })], files := [] }

/-- C6 amended-claim witness: the missing-file case evaluated concretely. -/
theorem getCachedResult_amended_witness :
    (getCachedResult missingFileCacheState 5 "fp").1 = none ∧
    (getCachedResult missingFileCacheState 5 "fp").2.cacheMap =
      mapDelete missingFileCacheState.cacheMap "fp" ∧
    (getCachedResult missingFileCacheState 5 "fp").2.files = missingFileCacheState.files :=
  (getCachedResult_amended missingFileCacheState 5 "fp" { path := "p", timestamp := 0 }
    (by decide)).1 (by decide)

/-- The profiling options relevant to `generateFingerprint`
(cacheService.js:80-97); absent keys are `none`. -/
structure ProfileOptions where
  delimiter : Option String := none
  skipEmptyLines : Option Bool := none
  enableSampling : Option Bool := none
  sampleSize : Option ℕ := none
  useCache : Option Bool := none
deriving DecidableEq, Repr

/-- `options.delimiter || ''` — an absent or empty delimiter normalizes to
the empty string. -/
def delimiterOrEmpty (o : ProfileOptions) : String :=
  match o.delimiter with
  | some s => if s = "" then "" else s
  | none => ""

/-- `options.skipEmptyLines !== false` — anything but an explicit `false`
reads as `true`. -/
def skipEmptyLinesFlag (o : ProfileOptions) : Bool :=
  match o.skipEmptyLines with
  | some false => false
  | _ => true

/-- JSON string escaping for backslash and quote; the control-character
escapes of `JSON.stringify` are not exercised by any claim. -/
def jsonEscape (s : String) : String :=
  s.foldl
    (fun acc c =>
      if c = '\\' then acc ++ "\\\\"
      else if c = '\"' then acc ++ "\\\""
      else acc.push c)
    ""

/-- `JSON.stringify(relevantOptions)` where
`relevantOptions = {delimiter: …, skipEmptyLines: …}` — object literal keys
serialize in this fixed insertion order (cacheService.js:85-91). -/
def relevantOptionsStr (o : ProfileOptions) : String :=
  "\x7b\"delimiter\":\"" ++ jsonEscape (delimiterOrEmpty o) ++
    "\",\"skipEmptyLines\":" ++ (if skipEmptyLinesFlag o then "true" else "false") ++ "\x7d"

/-- `generateFingerprint` (cacheService.js:80-97), parameterized by the
SHA-256 primitive: the fingerprint is the hash of
`hash(content) + "|" + canonicalOptions`.  Every proved property holds for
an arbitrary hash function. -/
def generateFingerprint (sha256 : String → String) (csv : String) (o : ProfileOptions) :
    String :=
  sha256 (sha256 csv ++ "|" ++ relevantOptionsStr o)

/-- C7: the fingerprint is the hash of the content hash joined by `"|"`
with the fixed-key-order serialization of exactly
`{delimiter, skipEmptyLines}`; hence two option objects agreeing on those
two fields fingerprint identically, whatever their `enableSampling`,
`sampleSize` or `useCache` fields. -/
theorem generateFingerprint_canonical (sha256 : String → String) (csv : String)
    (o o₁ o₂ : ProfileOptions)
    (hd : o₁.delimiter = o₂.delimiter) (hs : o₁.skipEmptyLines = o₂.skipEmptyLines) :
    generateFingerprint sha256 csv o =
      sha256 (sha256 csv ++ "|" ++ relevantOptionsStr o) ∧
    generateFingerprint sha256 csv o₁ = generateFingerprint sha256 csv o₂ := by
  refine ⟨rfl, ?_⟩
  unfold generateFingerprint relevantOptionsStr delimiterOrEmpty skipEmptyLinesFlag
  rw [hd, hs]

/-- C7 witness: two concrete option objects differing only in sampling and
cache fields produce the same fingerprint (hash instantiated to `id`). -/
theorem generateFingerprint_canonical_witness :
    generateFingerprint (fun s => s) "a,b" { delimiter := some ",", useCache := some true } =
      generateFingerprint (fun s => s) "a,b"
        { delimiter := some ",", enableSampling := some false, sampleSize := some 10 } :=
  (generateFingerprint_canonical (fun s => s) "a,b" { }
    { delimiter := some ",", useCache := some true }
    { delimiter := some ",", enableSampling := some false, sampleSize := some 10 }
    rfl rfl).2

/-! ## C9 — comparison engine (`compare.js`) -/

/-- One correlation record of a profile report as consumed by
`compareCorrelations` (only `pair` and `correlation` are read). -/
structure CorrIn where
  pair : String
  correlation : ℚ
deriving DecidableEq, Repr

/-- The per-pair objects produced by `compareCorrelations`
(compare.js:219-251); the three JavaScript shapes become three
constructors. -/
inductive CorrChange where
  | added : String → ℚ → CorrChange
  | removed : String → ℚ → CorrChange
  | changed : String → ℚ → ℚ → ℚ → Bool → Bool → CorrChange
deriving DecidableEq, Repr

/-- The truthiness test `c.onlyInProfile2` — only `added` entries carry it. -/
def CorrChange.isOnlyInProfile2 : CorrChange → Bool
  | CorrChange.added _ _ => true
  | _ => false

/-- The truthiness test `c.onlyInProfile1`. -/
def CorrChange.isOnlyInProfile1 : CorrChange → Bool
  | CorrChange.removed _ _ => true
  | _ => false

/-- `Math.abs(entry.diff)` — only `changed` entries are ever sorted by it. -/
def CorrChange.absDiff : CorrChange → ℚ
  | CorrChange.changed _ _ _ d _ _ => |d|
  | _ => 0

/-- The `significant` flag of a `changed` entry. -/
def CorrChange.isSignificant : CorrChange → Bool
  | CorrChange.changed _ _ _ _ s _ => s
  | _ => false

/-- The `signChange` flag of a `changed` entry. -/
def CorrChange.isSignChange : CorrChange → Bool
  | CorrChange.changed _ _ _ _ _ s => s
  | _ => false

/-- `[...new Set(list)]` — first occurrences, in order. -/
def jsSetDedup (l : List String) : List String :=
  l.foldl (fun acc s => if s ∈ acc then acc else acc ++ [s]) []

/-- `new Map(entries.map(c => [c.pair, c])).get(k)` — on duplicate keys the
later entry wins. -/
def jsMapGet (entries : List CorrIn) (k : String) : Option CorrIn :=
  entries.foldl (fun acc c => if c.pair = k then some c else acc) none

/-- The `{added, removed, changed}` result of `compareCorrelations`. -/
structure CorrChanges where
  added : List CorrChange
  removed : List CorrChange
  changed : List CorrChange
deriving DecidableEq, Repr

/-- `compareCorrelations` (compare.js:210-259): for every pair name seen on
either side, classify as added / removed / changed; changed entries carry
`diff = r₂ − r₁`, `significant = |diff| > 0.2` and
`signChange = (r₁>0 ∧ r₂<0) ∨ (r₁<0 ∧ r₂>0)`; `changed` is sorted by
descending `|diff|`.  The `none/none` fallback is unreachable (each pair
name stems from one of the two inputs) and mirrors the source, which would
simply never build such an entry. -/
def compareCorrelations (correlations1 correlations2 : List CorrIn) : CorrChanges :=
  let allPairs := jsSetDedup
    (correlations1.map (fun c => c.pair) ++ correlations2.map (fun c => c.pair))
  let changes := allPairs.map (fun pr =>
    match jsMapGet correlations1 pr, jsMapGet correlations2 pr with
    | none, some c2 => CorrChange.added pr c2.correlation
    | some c1, none => CorrChange.removed pr c1.correlation
    | some c1, some c2 =>
      CorrChange.changed pr c1.correlation c2.correlation
        (c2.correlation - c1.correlation)
        (decide ((0.2 : ℚ) < |c2.correlation - c1.correlation|))
        (decide ((0 < c1.correlation ∧ c2.correlation < 0) ∨
          (c1.correlation < 0 ∧ 0 < c2.correlation)))
    | none, none => CorrChange.added pr 0)
  { added := changes.filter (fun c => c.isOnlyInProfile2)
    removed := changes.filter (fun c => c.isOnlyInProfile1)
    changed := (changes.filter
        (fun c => !c.isOnlyInProfile1 && !c.isOnlyInProfile2)).mergeSort
      (fun a b => decide (b.absDiff ≤ a.absDiff)) }

/-- An insight record of the comparison engine (compare.js:264-376). -/
structure Insight where
  category : String
  type : String
  message : String
  severity : String
deriving DecidableEq, Repr

/-- The numeric sub-changes of a common column (compare.js:113-123). -/
structure NumericChange where
  meanDiff : ℚ
  meanPercent : ℚ
  stdDevDiff : ℚ
  minDiff : ℚ
  maxDiff : ℚ
  rangeDiff : ℚ
  outliersDiff : ℤ
deriving DecidableEq, Repr

/-- The change record computed for a common column (compare.js:100-137);
only the fields read by `generateComparisonInsights` are carried. -/
structure ColumnChanges where
  typeChanged : Bool
  typeChange : Option String
  missingCountDiff : ℤ
  missingPercentDiff : ℚ
  uniqueValuesDiff : ℤ
  uniquePercent : ℚ
  numeric : Option NumericChange
deriving DecidableEq, Repr

/-- An entry of `columnComparisons` (compare.js:132-137). -/
structure ColumnComparison where
  column : String
  type1 : String
  type2 : String
  changes : ColumnChanges
deriving DecidableEq, Repr

/-- The argument object `compareProfiles` builds for
`generateComparisonInsights` (compare.js:147-153): it carries the
correlation diff under the key `correlationChanges`, while the key
`correlations` — which the callee dereferences at compare.js:348 and 360 —
is never set.  `Object.values(columnComparisons)` is the insertion-ordered
list of column comparisons. -/
structure ComparisonArg where
  columnComparisons : List ColumnComparison
  uniqueToProfile1 : List String
  uniqueToProfile2 : List String
  rowCountDiff : ℤ
  correlationChanges : CorrChanges
  correlations : Option CorrChanges

/-- The object literal at compare.js:147-153: the `correlations` field the
callee reads is absent (`none`). -/
def mkInsightsArg (columnComparisons : List ColumnComparison)
    (uniqueToProfile1 uniqueToProfile2 : List String) (rowCountDiff : ℤ)
    (correlationChanges : CorrChanges) : ComparisonArg :=
  { columnComparisons := columnComparisons
    uniqueToProfile1 := uniqueToProfile1
    uniqueToProfile2 := uniqueToProfile2
    rowCountDiff := rowCountDiff
    correlationChanges := correlationChanges
    correlations := none }

/-- `severityOrder = {high: 3, medium: 2, low: 1}` (compare.js:373). -/
def severityOrder (s : String) : ℕ :=
  if s = "high" then 3 else if s = "medium" then 2 else if s = "low" then 1 else 0

/-- `generateComparisonInsights` (compare.js:264-376).  The rule pushes
happen in source order; reading `comparison.correlations` on the object
built by `mkInsightsArg` dereferences an absent key, which in JavaScript
throws `TypeError` — embedded as `Except.error`.  Decimal `toFixed`
formatting inside messages is abstracted by rational/integer rendering. -/
def generateComparisonInsights (totalRows1 : ℕ) (arg : ComparisonArg) :
    Except String (List Insight) :=
  let rowInsights : List Insight :=
    if 0 < |arg.rowCountDiff| then
      let percentChange : ℚ := |((arg.rowCountDiff : ℚ) / (totalRows1 : ℚ)) * 100|
      let direction := if 0 < arg.rowCountDiff then "increased" else "decreased"
      let severity :=
        if 50 < percentChange then "high" else if 20 < percentChange then "medium" else "low"
      [{ category := "Data Size", type := "change",
         message := "Row count has " ++ direction ++ " by " ++
           toString |arg.rowCountDiff| ++ " rows",
         severity := severity }]
    else []
  let removedInsights : List Insight :=
    if 0 < arg.uniqueToProfile1.length then
      [{ category := "Column Structure", type := "removed",
         message := toString arg.uniqueToProfile1.length ++ " columns were removed: " ++
           String.intercalate ", " arg.uniqueToProfile1,
         severity := "high" }]
    else []
  let addedInsights : List Insight :=
    if 0 < arg.uniqueToProfile2.length then
      [{ category := "Column Structure", type := "added",
         message := toString arg.uniqueToProfile2.length ++ " new columns were added: " ++
           String.intercalate ", " arg.uniqueToProfile2,
         severity := "high" }]
    else []
  let typeChanges := arg.columnComparisons.filter (fun comp => comp.changes.typeChanged)
  let typeInsights : List Insight :=
    if 0 < typeChanges.length then
      [{ category := "Data Types", type := "changed",
         message := toString typeChanges.length ++ " columns changed data types",
         severity := "high" }]
    else []
  let missingIncreases := arg.columnComparisons.filter
    (fun comp => decide ((5 : ℚ) < comp.changes.missingPercentDiff))
  let missingInsights : List Insight :=
    if 0 < missingIncreases.length then
      [{ category := "Data Quality", type := "warning",
         message := toString missingIncreases.length ++
           " columns have significantly higher missing values",
         severity := "medium" }]
    else []
  let numericChanges := arg.columnComparisons.filter (fun comp =>
    comp.type1 == "numeric" && comp.type2 == "numeric" &&
      (match comp.changes.numeric with
       | some n => decide ((20 : ℚ) < |n.meanPercent|)
       | none => false))
  let numericInsights : List Insight :=
    if 0 < numericChanges.length then
      [{ category := "Numeric Distributions", type := "change",
         message := toString numericChanges.length ++
           " numeric columns have significant mean changes",
         severity := "medium" }]
    else []
  match arg.correlations with
  | none =>
    Except.error "TypeError: Cannot read properties of undefined (reading 'changed')"
  | some correlations =>
    let significantCorrChanges := correlations.changed.filter
      (fun c => c.isSignificant)
    let corrInsights : List Insight :=
      if 0 < significantCorrChanges.length then
        [{ category := "Relationships", type := "change",
           message := toString significantCorrChanges.length ++
             " correlation relationships have changed significantly",
           severity := "medium" }]
      else []
    let signChanges := correlations.changed.filter (fun c => c.isSignChange)
    let signInsights : List Insight :=
      if 0 < signChanges.length then
        [{ category := "Relationships", type := "warning",
           message := toString signChanges.length ++
             " correlations have changed direction (positive to negative or vice versa)",
           severity := "high" }]
      else []
    Except.ok
      ((rowInsights ++ removedInsights ++ addedInsights ++ typeInsights ++ missingInsights ++
          numericInsights ++ corrInsights ++ signInsights).mergeSort
        (fun a b => decide (severityOrder b.severity ≤ severityOrder a.severity)))

/-- The correlation list of report 1 in the spec's sign-flip scenario. -/
def report1Corrs : List CorrIn := [{ pair := "u & v", correlation := 0.6 }]

/-- The correlation list of report 2 in the spec's sign-flip scenario. -/
def report2Corrs : List CorrIn := [{ pair := "u & v", correlation := -0.5 }]

/-- C9: on the spec's sign-flip scenario (r = 0.6 versus r = −0.5) the
comparison records exactly one changed pair with `diff = −1.1`,
`significant = true` and `signChange = true` — but the insight stage,
invoked with the argument object `compareProfiles` actually builds,
dereferences the absent `correlations` key and throws a `TypeError`
instead of emitting the high-severity Relationships insight. -/
theorem compareCorrelations_signflip_bug :
    (compareCorrelations report1Corrs report2Corrs).changed =
      [CorrChange.changed "u & v" 0.6 (-0.5) (-1.1) true true] ∧
    (compareCorrelations report1Corrs report2Corrs).added = [] ∧
    (compareCorrelations report1Corrs report2Corrs).removed = [] ∧
    generateComparisonInsights 1
        (mkInsightsArg [] [] [] 0 (compareCorrelations report1Corrs report2Corrs)) =
      Except.error "TypeError: Cannot read properties of undefined (reading 'changed')" := by
  have hget1 : jsMapGet report1Corrs "u & v" =
      some { pair := "u & v", correlation := 0.6 } := rfl
  have hget2 : jsMapGet report2Corrs "u & v" =
      some { pair := "u & v", correlation := -0.5 } := rfl
  have hdedup : jsSetDedup
      (report1Corrs.map (fun c => c.pair) ++ report2Corrs.map (fun c => c.pair)) =
      ["u & v"] := by decide
  refine ⟨?_, ?_, ?_, rfl⟩ <;>
  · unfold compareCorrelations
    simp only [hdedup, List.map_cons, List.map_nil, hget1, hget2, List.filter_cons,
      List.filter_nil, CorrChange.isOnlyInProfile1, CorrChange.isOnlyInProfile2,
      Bool.not_false, Bool.not_true, Bool.and_self, List.mergeSort_singleton]
    norm_num [abs_of_pos]
